import Mathlib

/-!
Verification of the DIMO nameindexer index codec and index repository.

The Go sources are shallowly embedded: Go strings become lists of
characters (all data handled by the codec is ASCII, so character
positions coincide with Go byte positions), machine integers become
natural numbers with explicit reductions modulo 2 ^ w where the machine
width matters, fallible functions return Except, and the two external
stores consulted by the repository are modelled as explicit state.

The repository history contains two generations of the codec, both of
which are referenced by the specification:
- namespace IndexGo models the generation of index.go in which the
  Index record carries typed NFTDID and address fields and EncodeIndex
  validates fillers and the year before rendering;
- namespace CloudGo models the later generation (index.go together with
  cloud_event_index.go) in which the Index record carries pre-encoded
  string fields and every field has its own Encode/Decode pair.
Namespace RepoGo models the index repository built on top of them.
-/

namespace Nameindexer

/-- Go strings, modelled as lists of characters. -/
abbrev GoStr := List Char

/-! ## Numeral rendering and parsing primitives -/

/-- Fixed-width base-b numeral, most significant digit first: digit i of the
output is n / b ^ (w - 1 - i) reduced mod b. For n < b ^ w this is the
zero-padded numeral printed by the Go fmt verbs such as %06d and %016x. -/
def padNum (b : Nat) : Nat → Nat → List Char
  | 0, _ => []
  | w + 1, n => Nat.digitChar (n / b ^ w) :: padNum b w (n % b ^ w)

/-- Unpadded base-b digits of n (the width-overflow branch of the fmt verbs,
unreachable at every call site of this development). -/
def unpaddedNum (b n : Nat) : List Char := Nat.toDigits b n

/-- Model of the Go verb %0wd: decimal, zero padded to a minimum width w. -/
def fmtDec (w n : Nat) : List Char :=
  if n < 10 ^ w then padNum 10 w n else unpaddedNum 10 n

/-- Model of the Go verb %0wx: lower-case hexadecimal, zero padded to a
minimum width w. -/
def fmtHex (w n : Nat) : List Char :=
  if n < 16 ^ w then padNum 16 w n else unpaddedNum 16 n

/-- Value of a decimal digit character, none for anything else. -/
def digitVal? (c : Char) : Option Nat :=
  if '0' ≤ c ∧ c ≤ '9' then some (c.toNat - '0'.toNat) else none

/-- Value of a hexadecimal digit character of either case, none otherwise. -/
def hexVal? (c : Char) : Option Nat :=
  if '0' ≤ c ∧ c ≤ '9' then some (c.toNat - '0'.toNat)
  else if 'a' ≤ c ∧ c ≤ 'f' then some (c.toNat - 'a'.toNat + 10)
  else if 'A' ≤ c ∧ c ≤ 'F' then some (c.toNat - 'A'.toNat + 10)
  else none

/-- Digit-list evaluator shared by the decimal and hexadecimal parsers. -/
def parseDigitsAux (f : Char → Option Nat) (b : Nat) : Nat → List Char → Option Nat
  | acc, [] => some acc
  | acc, c :: cs =>
    match f c with
    | some d => parseDigitsAux f b (b * acc + d) cs
    | none => none

/-- Model of strconv.Atoi restricted to the nonnegative numerals that reach it
in this codebase: empty input or a non-digit character is an error. -/
def atoi (s : GoStr) : Option Nat :=
  if s = [] then none else parseDigitsAux digitVal? 10 0 s

/-- Model of strconv.ParseUint with base 16 and the given bit size: empty
input, a non-hex character, or a value of at least 2 ^ bits is an error. -/
def parseUintHex (bits : Nat) (s : GoStr) : Option Nat :=
  if s = [] then none
  else
    match parseDigitsAux hexVal? 16 0 s with
    | some v => if v < 2 ^ bits then some v else none
    | none => none

/-! ## Addresses (go-ethereum common.Address) -/

/-- The numeric value of a 20-byte ethereum address. -/
abbrev AddressVal := Nat

/-- Model of Address.Hex without the EIP-55 checksum casing: go-ethereum
renders some hex letters in upper case depending on a Keccak hash of the
address bytes, but every consumer in this codebase either slices the digits
into fixed-width fields or re-parses them case-insensitively, so the casing
never influences the properties proved below; lower case is used throughout. -/
def addressHex (a : AddressVal) : GoStr := '0' :: 'x' :: fmtHex 40 (a % 2 ^ 160)

/-- Model of the prefix strip inside common.IsHexAddress and common.FromHex:
Go checks has0xPrefix, that is a leading 0x or 0X. -/
def strip0x (s : GoStr) : GoStr :=
  if s.take 2 = ['0', 'x'] ∨ s.take 2 = ['0', 'X'] then s.drop 2 else s

/-- Model of common.IsHexAddress: after stripping an optional 0x the input is
exactly 40 hexadecimal characters. -/
def isHexAddress (s : GoStr) : Bool :=
  (strip0x s).length == 40 && (strip0x s).all fun c => (hexVal? c).isSome

/-- Model of common.HexToAddress at its guarded call sites: every caller first
checks isHexAddress, so the input is 40 hex digits (optionally 0x prefixed) and
the conversion evaluates them, keeping the low 20 bytes. -/
def hexToAddress (s : GoStr) : AddressVal :=
  ((parseDigitsAux hexVal? 16 0 (strip0x s)).getD 0) % 2 ^ 160

/-! ## Time (Go time.Time) -/

/-- Model of Go time.Time restricted to what the codec consults: a UTC wall
clock instant with second precision (the codec never reads nanoseconds, zones
other than UTC, or the monotonic clock). -/
structure GoTime where
  year : Nat
  month : Nat
  day : Nat
  hour : Nat
  minute : Nat
  second : Nat
deriving DecidableEq, Repr

/-- Model of Time.IsZero: the zero Time is January 1 of year 1, 00:00:00. -/
def GoTime.isZero (t : GoTime) : Bool := t == ⟨1, 1, 1, 0, 0, 0⟩

/-- Model of Time.Format with layout 150405 (HHMMSS, each component zero
padded to two digits; Go clock components are already in range). -/
def format150405 (t : GoTime) : GoStr :=
  fmtDec 2 t.hour ++ fmtDec 2 t.minute ++ fmtDec 2 t.second

/-- Two-digit component of a parsed time layout. -/
def parse2 (c1 c2 : Char) : Option Nat :=
  match digitVal? c1, digitVal? c2 with
  | some d1, some d2 => some (10 * d1 + d2)
  | _, _ => none

/-- Model of time.Parse with layout 150405: exactly six digit characters with
the clock components in range, yielding (hour, minute, second). -/
def parseHHMMSS (s : GoStr) : Option (Nat × Nat × Nat) :=
  match s with
  | [h1, h2, m1, m2, s1, s2] =>
    match parse2 h1 h2, parse2 m1 m2, parse2 s1 s2 with
    | some hh, some mm, some ss =>
      if hh < 24 ∧ mm < 60 ∧ ss < 60 then some (hh, mm, ss) else none
    | _, _, _ => none
  | _ => none

/-- Model of time.Date(year, month, day, h, m, s, 0, time.UTC) at the guarded
decode call sites: the decoder has already checked month in [1, 12] and day in
[1, 31], and Go normalisation of a day beyond the length of its month is never
exercised by an encoded value (a real time.Time is always calendar-valid), so
the components are assembled unchanged. -/
def timeDate (year month day hour minute second : Nat) : GoTime :=
  ⟨year, month, day, hour, minute, second⟩

/-! ## Errors -/

/-- Go errors reaching the callers of the embedded functions: the InvalidError
string type of the nameindexer package, parse failures from strconv and time,
a wrap with context via the fmt.Errorf %w verb, the sql.ErrNoRows sentinel
used by the repository, and opaque failures of the external stores. -/
inductive GoErr
  | invalidIndex (msg : GoStr)
  | parseFail (msg : GoStr)
  | noRows (msg : GoStr)
  | storeFail (msg : GoStr)
  | wrapped (context : GoStr) (inner : GoErr)
deriving DecidableEq, Repr

/-! ## NFT DIDs -/

/-- The cloudevent.NFTDID triple of the external model-garage package: a
uint64 chain id, a 20-byte contract address and a uint32 token id. -/
structure NFTDID where
  chainID : Nat
  contractAddress : AddressVal
  tokenID : Nat
deriving DecidableEq, Repr

/-! ## Shared codec constants and the data-version field codec

These mirror the constant block of index.go and the EncodeDataType and
DecodeDataType pair, whose bodies are identical in both generations of the
codec. -/

def DateLength : Nat := 6

def FillerLength : Nat := 2

def DataTypeLength : Nat := 20

def DIDLength : Nat := 64

def TimeLength : Nat := 6

def AddressLength : Nat := 40

def TotalLength : Nat :=
  DIDLength + DateLength + FillerLength + DataTypeLength + TimeLength +
    AddressLength + DIDLength + FillerLength

def DateMax : Nat := 999999

def DefaultPrimaryFiller : GoStr := "MM".toList

def DefaultSecondaryFiller : GoStr := "00".toList

/-- The reserved pad character of the data-version field (the Go constant
DataTypePadding, a one-character string). -/
def DataTypePadding : Char := '!'

/-- Model of strings.TrimLeft with a one-character cutset: every leading
occurrence of the character is removed. -/
def trimLeftChar (pad : Char) : GoStr → GoStr
  | [] => []
  | c :: cs => if c = pad then trimLeftChar pad cs else c :: cs

/-- EncodeDataType left-pads the data type with the pad character if shorter
than 20 and truncates it if longer. -/
def EncodeDataType (dataType : GoStr) : GoStr :=
  if DataTypeLength < dataType.length then dataType.take DataTypeLength
  else if dataType.length < DataTypeLength then
    List.replicate (DataTypeLength - dataType.length) DataTypePadding ++ dataType
  else dataType

/-- DecodeDataType removes the left padding. -/
def DecodeDataType (dataType : GoStr) : GoStr := trimLeftChar DataTypePadding dataType

/-- EncodeAddress renders an ethereum address without the 0x prefix. -/
def EncodeAddress (address : AddressVal) : GoStr := (addressHex address).drop 2

/-- Shared slicing helper of the decoders: the substring of the given width at
the given start, together with the next start. -/
def getNextPart (encodedIndex : GoStr) (start offset : Nat) : GoStr × Nat :=
  ((encodedIndex.drop start).take offset, start + offset)

namespace IndexGo

/-- The Index record of the generation of index.go with typed fields: an
NFTDID subject and producer, an address source, and the optional tail. -/
structure Index where
  subject : NFTDID
  timestamp : GoTime
  primaryFiller : GoStr
  dataType : GoStr
  source : AddressVal
  producer : NFTDID
  secondaryFiller : GoStr
  optional : GoStr
deriving DecidableEq, Repr

/-- WithDefaults replaces empty fillers by the defaults; a nil index is passed
through. -/
def WithDefaults : Option Index → Option Index
  | none => none
  | some index =>
    some { index with
      primaryFiller :=
        if index.primaryFiller = [] then DefaultPrimaryFiller else index.primaryFiller
      secondaryFiller :=
        if index.secondaryFiller = [] then DefaultSecondaryFiller else index.secondaryFiller }

/-- ValidateIndex rejects a nil index, fillers whose length is not 2, and a
zero timestamp or one whose year lies outside [2000, 2099]. -/
def ValidateIndex : Option Index → Except GoErr Unit
  | none => .error (.invalidIndex "nil index".toList)
  | some index =>
    if index.primaryFiller.length ≠ FillerLength then
      .error (.invalidIndex "primary filler length".toList)
    else if index.secondaryFiller.length ≠ FillerLength then
      .error (.invalidIndex "secondary filler length".toList)
    else if index.timestamp.isZero ∨ index.timestamp.year < 2000 ∨ 2099 < index.timestamp.year then
      .error (.invalidIndex "timestamp year must be between 2000 and 2099".toList)
    else .ok ()

/-- EncodeNFTDID of this generation re-checks the (always well-formed) hex
rendering of the contract address and then concatenates the chain id as 16 hex
digits, the unprefixed address as 40, and the token id as 8; the reductions
modulo 2 ^ 64 and 2 ^ 32 record the Go machine widths uint64 and uint32. -/
def EncodeNFTDID (did : NFTDID) : Except GoErr GoStr :=
  if isHexAddress (addressHex did.contractAddress) then
    .ok (fmtHex 16 (did.chainID % 2 ^ 64) ++ EncodeAddress did.contractAddress ++
      fmtHex 8 (did.tokenID % 2 ^ 32))
  else .error (.invalidIndex "contract address is not a valid address".toList)

/-- DecodeNFTDIDIndex rejects input whose length is not 64 and otherwise
parses the three fields at offsets 0, 16 and 56; the final reduction modulo
2 ^ 32 records the Go uint32 cast of the parsed token id. -/
def DecodeNFTDIDIndex (indexNFTDID : GoStr) : Except GoErr NFTDID :=
  if indexNFTDID.length ≠ DIDLength then
    .error (.invalidIndex "invalid NFTDID length".toList)
  else
    let (chainIDPart, s1) := getNextPart indexNFTDID 0 16
    match parseUintHex 64 chainIDPart with
    | none => .error (.wrapped "chain ID".toList (.parseFail "invalid syntax".toList))
    | some chainID =>
      let (contractPart, s2) := getNextPart indexNFTDID s1 AddressLength
      if ¬ isHexAddress contractPart then
        .error (.invalidIndex "contract address is not a valid address".toList)
      else
        let contractAddress := hexToAddress contractPart
        let (tokenIDPart, _) := getNextPart indexNFTDID s2 8
        match parseUintHex 32 tokenIDPart with
        | none => .error (.wrapped "token ID".toList (.parseFail "invalid syntax".toList))
        | some tokenID => .ok ⟨chainID, contractAddress, tokenID % 2 ^ 32⟩

/-- EncodeIndex of this generation: defaulting, validation, and rendering as
subject, inverted date, time, primary filler, source, padded data type,
secondary filler, producer and the optional tail. The date subtraction is on
Go ints; it cannot go below zero for a calendar-valid timestamp, which every
time.Time is, so Nat subtraction is faithful on all reachable inputs. -/
def EncodeIndex (origIndex : Option Index) : Except GoErr GoStr :=
  match WithDefaults origIndex with
  | none => .error (.invalidIndex "nil index".toList)
  | some index =>
    match ValidateIndex (WithDefaults origIndex) with
    | .error e => .error e
    | .ok _ =>
      let yymmddInt :=
        (index.timestamp.year % 100) * 10000 + index.timestamp.month * 100 + index.timestamp.day
      let datePart := DateMax - yymmddInt
      let timePart := format150405 index.timestamp
      match EncodeNFTDID index.subject with
      | .error e => .error (.wrapped "subject".toList e)
      | .ok subject =>
        match EncodeNFTDID index.producer with
        | .error e => .error (.wrapped "producer".toList e)
        | .ok producer =>
          let unPrefixedSource := EncodeAddress index.source
          let dataType := EncodeDataType index.dataType
          .ok (subject ++ fmtDec 6 datePart ++ timePart ++ index.primaryFiller ++
            unPrefixedSource ++ dataType ++ index.secondaryFiller ++ producer ++
            index.optional)

/-- DecodeIndex of this generation: length guard, fixed-offset slicing, date
reconstruction with month and day range checks, subject, time, source and
producer decoding, pad stripping of the data type and the optional tail. -/
def DecodeIndex (index : GoStr) : Except GoErr Index :=
  if index.length < TotalLength then
    .error (.invalidIndex "length is less than 204".toList)
  else
    let (subjectPart, s1) := getNextPart index 0 DIDLength
    let (datePart, s2) := getNextPart index s1 DateLength
    let (timePart, s3) := getNextPart index s2 TimeLength
    let (primaryFillerPart, s4) := getNextPart index s3 FillerLength
    let (sourcePart, s5) := getNextPart index s4 AddressLength
    let (dataTypePart, s6) := getNextPart index s5 DataTypeLength
    let (secondaryFillerPart, s7) := getNextPart index s6 FillerLength
    let (producerPart, s8) := getNextPart index s7 DIDLength
    let optional := index.drop s8
    match atoi datePart with
    | none => .error (.wrapped "date part".toList (.parseFail "invalid syntax".toList))
    | some dateInt =>
      let yymmddInt := DateMax - dateInt
      let year := yymmddInt / 10000 + 2000
      let month := yymmddInt % 10000 / 100
      let day := yymmddInt % 100
      if month < 1 ∨ 12 < month then .error (.invalidIndex "month out of range".toList)
      else if day < 1 ∨ 31 < day then .error (.invalidIndex "day out of range".toList)
      else
        match DecodeNFTDIDIndex subjectPart with
        | .error e => .error (.wrapped "subject part".toList e)
        | .ok subject =>
          match parseHHMMSS timePart with
          | none => .error (.wrapped "time part".toList (.parseFail "cannot parse".toList))
          | some (hh, mm, ss) =>
            let fullTime := timeDate year month day hh mm ss
            if ¬ isHexAddress sourcePart then
              .error (.invalidIndex "source is not a valid address".toList)
            else
              match DecodeNFTDIDIndex producerPart with
              | .error e => .error (.wrapped "producer part".toList e)
              | .ok producer =>
                .ok { subject := subject
                      timestamp := fullTime
                      primaryFiller := primaryFillerPart
                      source := hexToAddress sourcePart
                      dataType := DecodeDataType dataTypePart
                      producer := producer
                      secondaryFiller := secondaryFillerPart
                      optional := optional }

/-- The fixed-width constraints of the round-trip property: fillers of length
exactly two, a data version of at most 20 characters, a calendar-valid UTC
timestamp with second precision and year in [2000, 2099], and numeric fields
within their Go machine widths (uint64 chain ids, 20-byte addresses, uint32
token ids), which every Go value of the corresponding type satisfies. -/
def WellFormed (r : Index) : Prop :=
  r.primaryFiller.length = 2 ∧ r.secondaryFiller.length = 2 ∧
    r.dataType.length ≤ 20 ∧
    2000 ≤ r.timestamp.year ∧ r.timestamp.year ≤ 2099 ∧
    1 ≤ r.timestamp.month ∧ r.timestamp.month ≤ 12 ∧
    1 ≤ r.timestamp.day ∧ r.timestamp.day ≤ 31 ∧
    r.timestamp.hour < 24 ∧ r.timestamp.minute < 60 ∧ r.timestamp.second < 60 ∧
    r.subject.chainID < 2 ^ 64 ∧ r.subject.contractAddress < 2 ^ 160 ∧
    r.subject.tokenID < 2 ^ 32 ∧
    r.source < 2 ^ 160 ∧
    r.producer.chainID < 2 ^ 64 ∧ r.producer.contractAddress < 2 ^ 160 ∧
    r.producer.tokenID < 2 ^ 32

/-- The date value embedded in the key of a record: the two-digit year, month
and day packed as yymmdd and subtracted from 999999. -/
def dateVal (t : GoTime) : Nat :=
  DateMax - ((t.year % 100) * 10000 + t.month * 100 + t.day)

end IndexGo

/-- The 64-character NFTDID slug shared by both generations of the encoder. -/
def nftdidStr (did : NFTDID) : GoStr :=
  fmtHex 16 (did.chainID % 2 ^ 64) ++ EncodeAddress did.contractAddress ++
    fmtHex 8 (did.tokenID % 2 ^ 32)




namespace CloudGo

/-! ### Event-type fillers (cloud_event_index.go) -/

def FillerStatus : GoStr := "A".toList

def FillerFingerprint : GoStr := "E".toList

def FillerVerifiableCredential : GoStr := "V".toList

def FillerUnknown : GoStr := "U".toList

/-- Modelled from the spec: the cloud event type constants live in the
external model-garage package; the values follow the dimo.status and
dimo.unknown strings of the test fixtures, and the proofs below use only
that the four constants are pairwise distinct. -/
def TypeStatus : GoStr := "dimo.status".toList

/-- Modelled from the spec: see TypeStatus. -/
def TypeFingerprint : GoStr := "dimo.fingerprint".toList

/-- Modelled from the spec: see TypeStatus (the Go identifier spells
Verifable without its second i). -/
def TypeVerifableCredential : GoStr := "dimo.verifiablecredential".toList

/-- Modelled from the spec: see TypeStatus. -/
def TypeUnknown : GoStr := "dimo.unknown".toList

/-- CloudTypeToFiller converts a cloud event type to its filler letter. -/
def CloudTypeToFiller (status : GoStr) : GoStr :=
  if status = TypeStatus then FillerStatus
  else if status = TypeFingerprint then FillerFingerprint
  else if status = TypeVerifableCredential then FillerVerifiableCredential
  else FillerUnknown

/-- FillerToCloudType converts a filler letter back to the cloud event type,
with the unknown type as the fallback. -/
def FillerToCloudType (filler : GoStr) : GoStr :=
  if filler = FillerStatus then TypeStatus
  else if filler = FillerFingerprint then TypeFingerprint
  else if filler = FillerVerifiableCredential then TypeVerifableCredential
  else TypeUnknown

/-! ### The string-field Index record and its per-field codecs (index.go of
this generation) -/

/-- The Index record whose subject, source and producer are pre-encoded
strings. -/
structure Index where
  subject : GoStr
  timestamp : GoTime
  primaryFiller : GoStr
  dataType : GoStr
  source : GoStr
  producer : GoStr
  secondaryFiller : GoStr
  optional : GoStr
deriving DecidableEq, Repr

/-- EncodePrimaryFiller pads the primary filler with M if shorter than 2 and
truncates it if longer. -/
def EncodePrimaryFiller (primaryFiller : GoStr) : GoStr :=
  if FillerLength < primaryFiller.length then primaryFiller.take FillerLength
  else if primaryFiller.length < FillerLength then
    List.replicate (FillerLength - primaryFiller.length) 'M' ++ primaryFiller
  else primaryFiller

/-- DecodePrimaryFiller removes the M padding. -/
def DecodePrimaryFiller (primaryFiller : GoStr) : GoStr := trimLeftChar 'M' primaryFiller

/-- EncodeSecondaryFiller pads the secondary filler with 0 if shorter than 2
and truncates it if longer. -/
def EncodeSecondaryFiller (secondaryFiller : GoStr) : GoStr :=
  if FillerLength < secondaryFiller.length then secondaryFiller.take FillerLength
  else if secondaryFiller.length < FillerLength then
    List.replicate (FillerLength - secondaryFiller.length) '0' ++ secondaryFiller
  else secondaryFiller

/-- DecodeSecondaryFiller removes the 0 padding. -/
def DecodeSecondaryFiller (secondaryFiller : GoStr) : GoStr := trimLeftChar '0' secondaryFiller

/-- EncodeSource renders the address with Hex (keeping the 0x prefix) and pads
or truncates the result to the 40-character slot; the 42-character Hex output
is truncated to its first 40 characters. -/
def EncodeSource (source : AddressVal) : GoStr :=
  let sourceStr := addressHex source
  if AddressLength < sourceStr.length then sourceStr.take AddressLength
  else if sourceStr.length < AddressLength then
    List.replicate (AddressLength - sourceStr.length) DataTypePadding ++ sourceStr
  else sourceStr

/-- DecodeSource removes the pad characters. -/
def DecodeSource (source : GoStr) : GoStr := trimLeftChar DataTypePadding source

/-- EncodeSubject pads the subject with the pad character to 64 characters,
truncating longer input. -/
def EncodeSubject (subject : GoStr) : GoStr :=
  if DIDLength < subject.length then subject.take DIDLength
  else if subject.length < DIDLength then
    List.replicate (DIDLength - subject.length) DataTypePadding ++ subject
  else subject

/-- DecodeSubject removes the pad characters. -/
def DecodeSubject (subject : GoStr) : GoStr := trimLeftChar DataTypePadding subject

/-- EncodeProducer pads the producer with the pad character to 64 characters,
truncating longer input. -/
def EncodeProducer (producer : GoStr) : GoStr :=
  if DIDLength < producer.length then producer.take DIDLength
  else if producer.length < DIDLength then
    List.replicate (DIDLength - producer.length) DataTypePadding ++ producer
  else producer

/-- DecodeProducer removes the pad characters. -/
def DecodeProducer (producer : GoStr) : GoStr := trimLeftChar DataTypePadding producer

/-- EncodeDate rejects a zero timestamp or a year outside [2000, 2099] and
otherwise renders 999999 minus the packed two-digit year, month and day as six
zero-padded decimal digits. -/
def EncodeDate (date : GoTime) : Except GoErr GoStr :=
  if date.isZero ∨ date.year < 2000 ∨ 2099 < date.year then
    .error (.invalidIndex "timestamp year must be between 2000 and 2099".toList)
  else
    .ok (fmtDec 6 (DateMax - ((date.year % 100) * 10000 + date.month * 100 + date.day)))

/-- EncodeTime renders the UTC clock as HHMMSS. -/
def EncodeTime (ts : GoTime) : GoStr := format150405 ts

/-- WithEncodedParts applies every per-field encoder; the source string is
first re-parsed as an address (common.HexToAddress) and re-rendered. -/
def Index.WithEncodedParts (i : Index) : Index :=
  { subject := EncodeSubject i.subject
    timestamp := i.timestamp
    primaryFiller := EncodePrimaryFiller i.primaryFiller
    dataType := EncodeDataType i.dataType
    source := EncodeSource (hexToAddress i.source)
    producer := EncodeProducer i.producer
    secondaryFiller := EncodeSecondaryFiller i.secondaryFiller
    optional := i.optional }

/-- EncodeIndex of this generation: nil check, per-field encoding, date
validation and plain concatenation of the nine parts. -/
def EncodeIndex (origIndex : Option Index) : Except GoErr GoStr :=
  match origIndex with
  | none => .error (.invalidIndex "index is nil".toList)
  | some orig =>
    let index := orig.WithEncodedParts
    match EncodeDate index.timestamp with
    | .error e => .error (.wrapped "date part".toList e)
    | .ok datePart =>
      let timePart := EncodeTime index.timestamp
      .ok (index.subject ++ datePart ++ timePart ++ index.primaryFiller ++ index.source ++
        index.dataType ++ index.secondaryFiller ++ index.producer ++ index.optional)

/-! ### The NFTDID sub-codec of cloud_event_index.go -/

/-- DecodeAddress rejects anything that is not a hex address and otherwise
parses it. -/
def DecodeAddress (encodedAddress : GoStr) : Except GoErr AddressVal :=
  if isHexAddress encodedAddress then .ok (hexToAddress encodedAddress)
  else .error (.invalidIndex "address is not a valid hex-encoded Ethereum address.".toList)

/-- EncodeNFTDID of this generation is total: chain id as 16 hex digits, the
unprefixed address as 40, the token id as 8 (the reductions record the uint64
and uint32 machine widths). -/
def EncodeNFTDID (did : NFTDID) : GoStr :=
  fmtHex 16 (did.chainID % 2 ^ 64) ++ EncodeAddress did.contractAddress ++
    fmtHex 8 (did.tokenID % 2 ^ 32)

/-- DecodeNFTDIDIndex rejects input whose length is not 64, slices the three
fields at offsets 0, 16 and 56 and parses them; the final reduction modulo
2 ^ 32 records the Go uint32 cast. -/
def DecodeNFTDIDIndex (indexNFTDID : GoStr) : Except GoErr NFTDID :=
  if indexNFTDID.length ≠ DIDLength then
    .error (.invalidIndex "invalid NFTDID length".toList)
  else
    let (chainIDPart, s1) := getNextPart indexNFTDID 0 16
    let (contractPart, s2) := getNextPart indexNFTDID s1 AddressLength
    let (tokenIDPart, _) := getNextPart indexNFTDID s2 8
    match parseUintHex 64 chainIDPart with
    | none => .error (.wrapped "chain ID".toList (.parseFail "invalid syntax".toList))
    | some chainID =>
      match DecodeAddress contractPart with
      | .error e => .error (.wrapped "contract address".toList e)
      | .ok contractAddress =>
        match parseUintHex 32 tokenIDPart with
        | none => .error (.wrapped "token ID".toList (.parseFail "invalid syntax".toList))
        | some tokenID => .ok ⟨chainID, contractAddress, tokenID % 2 ^ 32⟩

/-! ### Event headers and the best-effort conversion -/

/-- The fields of the external cloudevent.CloudEventHeader consulted by the
embedded functions; the Go field named Type is eventType here because Type is
reserved in Lean, and the extras map is carried as its rendered JSON. -/
structure CloudEventHeader where
  id : GoStr
  source : GoStr
  producer : GoStr
  subject : GoStr
  time : GoTime
  eventType : GoStr
  dataContentType : GoStr
  dataVersion : GoStr
  extras : GoStr
deriving DecidableEq, Repr

/-- Modelled from the spec: ValidateDate is called by the conversions of
cloud_event_index.go but its definition is not among the sources; per the
year invariant of the spec (sections 3 and 4.3) it rejects an absent (zero)
timestamp or a year outside [2000, 2099], matching EncodeDate and
ValidateIndex. -/
def ValidateDate (t : GoTime) : Except GoErr Unit :=
  if t.isZero ∨ t.year < 2000 ∨ 2099 < t.year then
    .error (.invalidIndex "timestamp year must be between 2000 and 2099".toList)
  else .ok ()

/-- Modelled from the spec: cloudevent.DecodeNFTDID of the external
model-garage package parses DIDs of the shape seen in the test fixtures,
did:nft:chainId:0xcontractAddress_tokenId; the embedded conversions consult
only whether it succeeds and the triple it returns. -/
def DecodeNFTDID (did : GoStr) : Except GoErr NFTDID :=
  if did.take 8 = "did:nft:".toList then
    let rest := did.drop 8
    let chainPart := rest.takeWhile (fun c => c ≠ ':')
    let rest2 := (rest.dropWhile (fun c => c ≠ ':')).drop 1
    let addrPart := rest2.takeWhile (fun c => c ≠ '_')
    let tokenPart := (rest2.dropWhile (fun c => c ≠ '_')).drop 1
    match atoi chainPart, atoi tokenPart with
    | some chainID, some tokenID =>
      if isHexAddress addrPart then
        .ok ⟨chainID % 2 ^ 64, hexToAddress addrPart, tokenID % 2 ^ 32⟩
      else .error (.parseFail "invalid contract address in DID".toList)
    | _, _ => .error (.parseFail "invalid numeric field in DID".toList)
  else .error (.parseFail "not an nft DID".toList)

/-- CloudEventToPartialIndex never fails: a nil header yields an index that
carries only the current time, an invalid timestamp is replaced by the
current time (the now parameter models time.Now), and subject, producer and
source each keep the raw header string when parsing fails, being re-encoded
canonically when it succeeds. -/
def CloudEventToPartialIndex (cloudHdr : Option CloudEventHeader) (secondaryFiller : GoStr)
    (now : GoTime) : Index :=
  match cloudHdr with
  | none =>
    { subject := [], timestamp := now, primaryFiller := [], dataType := [],
      source := [], producer := [], secondaryFiller := [], optional := [] }
  | some hdr =>
    let timestamp := match ValidateDate hdr.time with
      | .error _ => now
      | .ok _ => hdr.time
    let subject := match DecodeNFTDID hdr.subject with
      | .ok subjectDID => EncodeNFTDID subjectDID
      | .error _ => hdr.subject
    let producer := match DecodeNFTDID hdr.producer with
      | .ok producerDID => EncodeNFTDID producerDID
      | .error _ => hdr.producer
    let source := match DecodeAddress hdr.source with
      | .ok sourceAddr => EncodeAddress sourceAddr
      | .error _ => hdr.source
    { subject := subject
      timestamp := timestamp
      primaryFiller := CloudTypeToFiller hdr.eventType
      dataType := hdr.dataVersion
      source := source
      producer := producer
      secondaryFiller := secondaryFiller
      optional := [] }

/-- Model of Format(time.RFC3339) on the UTC instants of the model. -/
def formatRFC3339 (t : GoTime) : GoStr :=
  fmtDec 4 t.year ++ ['-'] ++ fmtDec 2 t.month ++ ['-'] ++ fmtDec 2 t.day ++ ['T'] ++
    fmtDec 2 t.hour ++ [':'] ++ fmtDec 2 t.minute ++ [':'] ++ fmtDec 2 t.second ++ ['Z']

/-- One row of column values for the cloud_event table, in column order. -/
structure CloudEventRow where
  subject : GoStr
  time : GoTime
  eventType : GoStr
  id : GoStr
  source : GoStr
  producer : GoStr
  dataContentType : GoStr
  dataVersion : GoStr
  extrasJson : GoStr
  indexKey : GoStr
deriving DecidableEq, Repr

/-- CloudEventToSlice derives the index key by encoding the best-effort index
and falls back to the synthetic id_source_time_subject string when encoding
fails; the other columns copy the header. The snapshot of this function calls
a one-argument CloudEventToPartialIndex; its secondary filler is the
secondaryFiller parameter here, and the clock used for timestamp substitution
is the now parameter. -/
def CloudEventToSlice (event : CloudEventHeader) (secondaryFiller : GoStr) (now : GoTime) :
    CloudEventRow :=
  let idx := CloudEventToPartialIndex (some event) secondaryFiller now
  let key := match EncodeIndex (some idx) with
    | .ok k => k
    | .error _ =>
      event.id ++ ['_'] ++ event.source ++ ['_'] ++ formatRFC3339 event.time ++ ['_'] ++
        event.subject
  { subject := event.subject
    time := event.time
    eventType := event.eventType
    id := event.id
    source := event.source
    producer := event.producer
    dataContentType := event.dataContentType
    dataVersion := event.dataVersion
    extrasJson := event.extras
    indexKey := key }

end CloudGo

namespace RepoGo

/-- One row of the name_index table, in the column order of IndexToSlice; the
event timestamp is an abstract instant (only its ordering and the strict
range comparisons reach the queries). -/
structure Row where
  subject : GoStr
  timestamp : Nat
  primaryFiller : GoStr
  source : GoStr
  dataType : GoStr
  secondaryFiller : GoStr
  producer : GoStr
  optional : GoStr
  indexKey : GoStr
deriving DecidableEq, Repr

/-- The raw search options of the mature repository; Go zero times and nil
pointers are the none cases, and the Go field named Type is eventType here. -/
structure RawSearchOptions where
  after : Option Nat
  before : Option Nat
  timestampAsc : Bool
  eventType : Option GoStr
  dataVersion : Option GoStr
  subject : Option GoStr
  source : Option GoStr
  producer : Option GoStr
  optional : Option GoStr
deriving DecidableEq, Repr

/-- Modelled from the spec: the string-typed EncodeSource applied by the
predicate construction is not among the sources (the EncodeSource of src
takes an address); following the spec rule that criteria are encoded exactly
as the stored column is, and the pattern of the sibling string encoders
EncodeSubject and EncodeProducer, it left-pads the raw string with the pad
character to the 40-character address width, truncating longer input. -/
def EncodeSourceStr (source : GoStr) : GoStr :=
  if AddressLength < source.length then source.take AddressLength
  else if source.length < AddressLength then
    List.replicate (AddressLength - source.length) DataTypePadding ++ source
  else source

/-- The predicate imposed on a row by the WHERE conjuncts that QueryMods
builds from the raw search options: each present field contributes exactly
one conjunct, the time bounds strict and the equality criteria encoded with
the per-field encoders before comparison. -/
def RawSearchOptions.matches (o : RawSearchOptions) (r : Row) : Bool :=
  (match o.after with | none => true | some a => decide (a < r.timestamp)) &&
  (match o.before with | none => true | some b => decide (r.timestamp < b)) &&
  (match o.eventType with
   | none => true
   | some t => r.primaryFiller == CloudGo.EncodePrimaryFiller (CloudGo.CloudTypeToFiller t)) &&
  (match o.dataVersion with | none => true | some dv => r.dataType == EncodeDataType dv) &&
  (match o.subject with | none => true | some s => r.subject == CloudGo.EncodeSubject s) &&
  (match o.source with | none => true | some s => r.source == EncodeSourceStr s) &&
  (match o.producer with | none => true | some p => r.producer == CloudGo.EncodeProducer p) &&
  (match o.optional with | none => true | some op => r.optional == op)

/-- ClickHouse argMax(x, timestamp) over a selection: the x of a row with
maximal timestamp, and the empty-string aggregate default over an empty
selection, which is exactly what the Go code tests to detect zero rows. -/
def argMaxBy {α : Type} (ts : α → Nat) (sel : α → GoStr) : List α → GoStr
  | [] => []
  | r :: rs => sel (rs.foldl (fun best x => if ts best < ts x then x else best) r)

/-- Ordered insertion for the ORDER BY model. -/
def insertBy {α : Type} (le : α → α → Bool) (x : α) : List α → List α
  | [] => [x]
  | y :: ys => if le x y then x :: y :: ys else y :: insertBy le x ys

/-- Insertion sort for the ORDER BY model. -/
def sortBy {α : Type} (le : α → α → Bool) : List α → List α
  | [] => []
  | x :: xs => insertBy le x (sortBy le xs)

/-- ORDER BY timestamp, descending unless ascending was requested. -/
def orderByTimestamp {α : Type} (ts : α → Nat) (asc : Bool) (rows : List α) : List α :=
  sortBy (fun a b => if asc then ts a ≤ ts b else ts b ≤ ts a) rows

/-- GetLatestIndexKey: the argMax query over the rows matching the
predicates, with the empty aggregate default reported as an error wrapping
sql.ErrNoRows (the noRows constructor); transport failures of the connection
are outside the model. -/
def GetLatestIndexKey (table : List Row) (opts : RawSearchOptions) : Except GoErr GoStr :=
  let indexKey := argMaxBy (fun r => r.timestamp) (fun r => r.indexKey)
    (table.filter fun r => opts.matches r)
  if indexKey = [] then .error (.noRows "no index keys found for subject".toList)
  else .ok indexKey

/-- GetIndexKeys: the list query ordered by timestamp and limited, with an
empty result reported as an error wrapping sql.ErrNoRows. -/
def GetIndexKeys (table : List Row) (limit : Nat) (opts : RawSearchOptions) :
    Except GoErr (List GoStr) :=
  let sorted := orderByTimestamp (fun r => r.timestamp) opts.timestampAsc
    (table.filter fun r => opts.matches r)
  let indexKeys := (sorted.take limit).map fun r => r.indexKey
  if indexKeys = [] then .error (.noRows "no indexKeys found for subject".toList)
  else .ok indexKeys

/-- One row of the legacy generation of the table, with the file name in
place of the index key. -/
structure FileRow where
  subject : GoStr
  timestamp : Nat
  primaryFiller : GoStr
  source : GoStr
  dataType : GoStr
  secondaryFiller : GoStr
  producer : GoStr
  optional : GoStr
  fileName : GoStr
deriving DecidableEq, Repr

/-- The search options of the legacy repository generation. -/
structure SearchOptions where
  after : Option Nat
  before : Option Nat
  timestampAsc : Bool
  primaryFiller : Option GoStr
  dataType : Option GoStr
  subject : Option GoStr
  secondaryFiller : Option GoStr
  source : Option GoStr
  producer : Option GoStr
  optional : Option GoStr
deriving DecidableEq, Repr

/-- The predicate built by the QueryMods of the legacy search options. -/
def SearchOptions.matches (o : SearchOptions) (r : FileRow) : Bool :=
  (match o.after with | none => true | some a => decide (a < r.timestamp)) &&
  (match o.before with | none => true | some b => decide (r.timestamp < b)) &&
  (match o.primaryFiller with
   | none => true
   | some pf => r.primaryFiller == CloudGo.EncodePrimaryFiller pf) &&
  (match o.dataType with | none => true | some dt => r.dataType == EncodeDataType dt) &&
  (match o.subject with | none => true | some s => r.subject == CloudGo.EncodeSubject s) &&
  (match o.secondaryFiller with
   | none => true
   | some sf => r.secondaryFiller == CloudGo.EncodeSecondaryFiller sf) &&
  (match o.source with | none => true | some s => r.source == EncodeSourceStr s) &&
  (match o.producer with | none => true | some p => r.producer == CloudGo.EncodeProducer p) &&
  (match o.optional with | none => true | some op => r.optional == op)

/-- GetLatestFileName: the legacy latest lookup; like GetLatestIndexKey it
reports the empty aggregate default as an error wrapping sql.ErrNoRows. -/
def GetLatestFileName (table : List FileRow) (opts : SearchOptions) : Except GoErr GoStr :=
  let filename := argMaxBy (fun r => r.timestamp) (fun r => r.fileName)
    (table.filter fun r => opts.matches r)
  if filename = [] then .error (.noRows "no filenames found for subject".toList)
  else .ok filename

/-- GetFileNames: the legacy list query; it returns the possibly empty list
of file names as a success, with no zero-row check. -/
def GetFileNames (table : List FileRow) (limit : Nat) (opts : SearchOptions) :
    Except GoErr (List GoStr) :=
  let sorted := orderByTimestamp (fun r => r.timestamp) opts.timestampAsc
    (table.filter fun r => opts.matches r)
  .ok ((sorted.take limit).map fun r => r.fileName)

/-- The blob-store get-object capability: content or failure per key; the
store client is assumed deterministic within one call. -/
def ObjGetter : Type := GoStr → Except GoErr GoStr

/-- GetObjectFromIndex fetches one object by its index key. -/
def GetObjectFromIndex (getter : ObjGetter) (indexKey : GoStr) : Except GoErr GoStr :=
  getter indexKey

/-- The loop of GetObjectsFromIndexKeys instrumented with the list of keys it
fetches: one GetObjectFromIndex call per element in order, stopping at the
first failure, with no de-duplication and no per-call cache. -/
def GetObjectsFromIndexKeysT (getter : ObjGetter) :
    List GoStr → List GoStr × Except GoErr (List GoStr)
  | [] => ([], .ok [])
  | k :: ks =>
    match GetObjectFromIndex getter k with
    | .error e => ([k], .error (.wrapped "failed to get data from inded key".toList e))
    | .ok content =>
      match GetObjectsFromIndexKeysT getter ks with
      | (calls, .error e) => (k :: calls, .error e)
      | (calls, .ok rest) => (k :: calls, .ok (content :: rest))

/-- GetObjectsFromIndexKeys is the result component of the instrumented
loop. -/
def GetObjectsFromIndexKeys (getter : ObjGetter) (indexKeys : List GoStr) :
    Except GoErr (List GoStr) :=
  (GetObjectsFromIndexKeysT getter indexKeys).2

/-- The keys fetched from the blob store during one GetObjectsFromIndexKeys
call. -/
def getObjectCalls (getter : ObjGetter) (indexKeys : List GoStr) : List GoStr :=
  (GetObjectsFromIndexKeysT getter indexKeys).1

/-- A column value of the insert statement: a string column or the raw
timestamp column. -/
inductive ValueCell
  | str (s : GoStr)
  | time (t : GoTime)
deriving DecidableEq, Repr

/-- IndexToSlice re-encodes the index into its key and renders the row of
column values in table order. -/
def IndexToSlice (origIndex : CloudGo.Index) : Except GoErr (List ValueCell) :=
  let index := origIndex.WithEncodedParts
  match CloudGo.EncodeIndex (some origIndex) with
  | .error e => .error (.wrapped "failed to encode index".toList e)
  | .ok indexKey =>
    .ok [.str index.subject, .time index.timestamp, .str index.primaryFiller,
      .str index.source, .str index.dataType, .str index.secondaryFiller,
      .str index.producer, .str index.optional, .str indexKey]

/-- The two external stores as the repository observes them: the objects
written to the blob store and the rows inserted into the columnar store. -/
structure StoreState where
  blob : List (GoStr × GoStr)
  rows : List (List ValueCell)
deriving DecidableEq, Repr

/-- storeObject: encode the key, put the payload to the blob store under that
key, then insert the index row; putFails and execFails are the outcomes of
the two external calls (true meaning the call fails) and the returned state
records exactly the effects performed before any failure. -/
def storeObject (index : CloudGo.Index) (data : GoStr) (putFails execFails : Bool)
    (st : StoreState) : StoreState × Option GoErr :=
  match CloudGo.EncodeIndex (some index) with
  | .error e => (st, some (.wrapped "failed to encode index".toList e))
  | .ok indexKey =>
    if putFails then
      (st, some (.wrapped "failed to store object in S3".toList (.storeFail "put".toList)))
    else
      let st1 : StoreState := { st with blob := st.blob ++ [(indexKey, data)] }
      match IndexToSlice index with
      | .error e => (st1, some (.wrapped "failed to convert index to slice".toList e))
      | .ok values =>
        if execFails then
          (st1, some (.wrapped "failed to store index in ClickHouse".toList
            (.storeFail "exec".toList)))
        else ({ st1 with rows := st1.rows ++ [values] }, none)

end RepoGo

/-! ## Spec-side predicates and concrete claim inputs -/

/-- The calendar field ranges of a representable timestamp (see section 3 of
the spec): year in [2000, 2099] and month and day within their ranges. -/
def CalendarValid (t : GoTime) : Prop :=
  2000 ≤ t.year ∧ t.year ≤ 2099 ∧ 1 ≤ t.month ∧ t.month ≤ 12 ∧ 1 ≤ t.day ∧ t.day ≤ 31

/-- Strictly later calendar date: t1 is later than t2. -/
def DateLater (t1 t2 : GoTime) : Prop :=
  t2.year < t1.year ∨ (t2.year = t1.year ∧ (t2.month < t1.month ∨
    (t2.month = t1.month ∧ t2.day < t1.day)))

/-- A record within the fixed-width constraints whose data version starts
with the reserved pad character. -/
def c1Record : IndexGo.Index :=
  ⟨⟨1, 2, 3⟩, ⟨2024, 6, 11, 15, 30, 0⟩, "MM".toList, "!v".toList, 4, ⟨5, 6, 7⟩,
    "00".toList, []⟩

/-- A record within the fixed-width constraints with an ordinary data
version and an optional tail. -/
def c1WitnessRecord : IndexGo.Index :=
  ⟨⟨1, 2, 3⟩, ⟨2024, 6, 11, 15, 30, 0⟩, "MM".toList, "Stat_2.0.0".toList, 4, ⟨5, 6, 7⟩,
    "00".toList, "tail".toList⟩

/-- A well-formed record used to exhibit the date segment of the key. -/
def c2Record : IndexGo.Index :=
  ⟨⟨1, 2, 3⟩, ⟨2024, 6, 11, 15, 30, 0⟩, "MM".toList, "Stat_2.0.0".toList, 4, ⟨5, 6, 7⟩,
    "00".toList, []⟩

/-- A record with a three-character primary filler. -/
def c3FillerRecord : IndexGo.Index :=
  ⟨⟨1, 2, 3⟩, ⟨2024, 6, 11, 15, 30, 0⟩, "MMM".toList, "Stat_2.0.0".toList, 4, ⟨5, 6, 7⟩,
    "00".toList, []⟩

/-- A record whose timestamp year is 1900. -/
def c3YearRecord : IndexGo.Index :=
  ⟨⟨1, 2, 3⟩, ⟨1900, 1, 1, 0, 0, 0⟩, "MM".toList, "Stat_2.0.0".toList, 4, ⟨5, 6, 7⟩,
    "00".toList, []⟩

/-- An event header whose subject is not a DID and whose timestamp is the Go
zero time. -/
def c6Header : CloudGo.CloudEventHeader :=
  ⟨"id1".toList, "not-an-address".toList, "not-a-did".toList, "not-a-did-either".toList,
    ⟨1, 1, 1, 0, 0, 0⟩, "dimo.status".toList, "application/json".toList, "v1".toList,
    "\x7b\x7d".toList⟩

/-- A clock instant standing for time.Now. -/
def c6Now : GoTime := ⟨2026, 10, 11, 12, 0, 0⟩

/-- A string-field index record whose encode succeeds. -/
def c9Record : CloudGo.Index :=
  ⟨"subj".toList, ⟨2024, 6, 11, 15, 30, 0⟩, "A".toList, "v1".toList, "src".toList,
    "prod".toList, "00".toList, []⟩

/-- A record within the fixed-width constraints whose data version starts
with the reserved pad character (input of the implicit pad-character claim). -/
def c10Record : IndexGo.Index :=
  ⟨⟨8, 9, 10⟩, ⟨2021, 2, 3, 4, 5, 6⟩, "XY".toList, "!data".toList, 11, ⟨12, 13, 14⟩,
    "ZW".toList, "opt".toList⟩




/-! # Theorems -/

/-! ## Numeral lemmas -/

theorem length_padNum (b : Nat) : ∀ (w n : Nat), (padNum b w n).length = w
  | 0, _ => rfl
  | w + 1, n => by simp [padNum, length_padNum b w]

theorem digitVal?_digitChar {d : Nat} (h : d < 10) :
    digitVal? (Nat.digitChar d) = some d := by
  interval_cases d <;> decide

theorem hexVal?_digitChar {d : Nat} (h : d < 16) :
    hexVal? (Nat.digitChar d) = some d := by
  interval_cases d <;> decide

theorem digitChar_lt_digitChar {x y : Nat} (hxy : x < y) (hy : y < 10) :
    Nat.digitChar x < Nat.digitChar y := by
  have hx : x < 10 := Nat.lt_trans hxy hy
  interval_cases x <;> interval_cases y <;> simp_all <;> decide

theorem digitChar_ne_x {d : Nat} (h : d < 16) :
    Nat.digitChar d ≠ 'x' ∧ Nat.digitChar d ≠ 'X' := by
  interval_cases d <;> decide

theorem parseDigitsAux_padNum {f : Char → Option Nat} {b : Nat}
    (hf : ∀ d, d < b → f (Nat.digitChar d) = some d) (hb : 1 < b) :
    ∀ (w acc n : Nat), n < b ^ w →
      parseDigitsAux f b acc (padNum b w n) = some (b ^ w * acc + n)
  | 0, acc, n, hn => by
    have : n = 0 := Nat.lt_one_iff.mp (by simpa using hn)
    simp [padNum, parseDigitsAux, this]
  | w + 1, acc, n, hn => by
    have hpow : 0 < b ^ w := Nat.pos_pow_of_pos w (by omega)
    have hdiv : n / b ^ w < b := by
      apply (Nat.div_lt_iff_lt_mul hpow).mpr
      rw [Nat.mul_comm]
      simpa [pow_succ] using hn
    have hmod : n % b ^ w < b ^ w := Nat.mod_lt _ hpow
    simp only [padNum, parseDigitsAux, hf _ hdiv]
    rw [parseDigitsAux_padNum hf hb w (b * acc + n / b ^ w) (n % b ^ w) hmod]
    congr 1
    have hnm := Nat.div_add_mod n (b ^ w)
    rw [pow_succ]
    calc b ^ w * (b * acc + n / b ^ w) + n % b ^ w
        = b ^ w * b * acc + (b ^ w * (n / b ^ w) + n % b ^ w) := by ring
      _ = b ^ w * b * acc + n := by rw [hnm]

theorem atoi_padNum {w n : Nat} (hw : 0 < w) (hn : n < 10 ^ w) :
    atoi (padNum 10 w n) = some n := by
  have hne : padNum 10 w n ≠ [] := by
    intro h
    have := length_padNum 10 w n
    rw [h] at this
    simp at this
    omega
  rw [atoi, if_neg hne,
    parseDigitsAux_padNum (fun d hd => digitVal?_digitChar hd) (by omega) w 0 n hn]
  simp

theorem atoi_fmtDec {w n : Nat} (hw : 0 < w) (hn : n < 10 ^ w) :
    atoi (fmtDec w n) = some n := by
  rw [fmtDec, if_pos hn, atoi_padNum hw hn]

theorem parseHex_padNum {w n : Nat} (hn : n < 16 ^ w) :
    parseDigitsAux hexVal? 16 0 (padNum 16 w n) = some n := by
  rw [parseDigitsAux_padNum (fun d hd => hexVal?_digitChar hd) (by omega) w 0 n hn]
  simp

theorem parseUintHex_padNum {bits w n : Nat} (hw : 0 < w) (hn : n < 16 ^ w)
    (hbits : n < 2 ^ bits) : parseUintHex bits (padNum 16 w n) = some n := by
  have hne : padNum 16 w n ≠ [] := by
    intro h
    have := length_padNum 16 w n
    rw [h] at this
    simp at this
    omega
  rw [parseUintHex, if_neg hne, parseHex_padNum hn]
  simp [hbits]

theorem fmtHex_eq_padNum {w n : Nat} (hn : n < 16 ^ w) :
    fmtHex w n = padNum 16 w n := by
  rw [fmtHex, if_pos hn]

theorem fmtDec_eq_padNum {w n : Nat} (hn : n < 10 ^ w) :
    fmtDec w n = padNum 10 w n := by
  rw [fmtDec, if_pos hn]

theorem mem_padNum_hex {w n : Nat} (hn : n < 16 ^ w) :
    ∀ c ∈ padNum 16 w n, (hexVal? c).isSome := by
  induction w generalizing n with
  | zero => simp [padNum]
  | succ w ih =>
    intro c hc
    have hpow : 0 < (16 : Nat) ^ w := Nat.pos_pow_of_pos w (by omega)
    have hdiv : n / 16 ^ w < 16 := by
      apply (Nat.div_lt_iff_lt_mul hpow).mpr
      rw [Nat.mul_comm]
      simpa [pow_succ] using hn
    have hmod : n % 16 ^ w < 16 ^ w := Nat.mod_lt _ hpow
    rw [padNum] at hc
    rcases List.mem_cons.mp hc with hc | hc
    · rw [hc, hexVal?_digitChar hdiv]
      rfl
    · exact ih hmod c hc

theorem padNum_dec_lt {w a b : Nat} (hab : a < b) (hb : b < 10 ^ w) :
    List.Lex (· < ·) (padNum 10 w a) (padNum 10 w b) := by
  induction w generalizing a b with
  | zero => omega
  | succ w ih =>
    have hpow : 0 < (10 : Nat) ^ w := Nat.pos_pow_of_pos w (by omega)
    have hbd : b / 10 ^ w < 10 := by
      apply (Nat.div_lt_iff_lt_mul hpow).mpr
      rw [Nat.mul_comm]
      simpa [pow_succ] using hb
    have hdle : a / 10 ^ w ≤ b / 10 ^ w := Nat.div_le_div_right (Nat.le_of_lt hab)
    rcases Nat.lt_or_ge (a / 10 ^ w) (b / 10 ^ w) with hlt | hge
    · exact List.Lex.rel (digitChar_lt_digitChar hlt hbd)
    · have heq : a / 10 ^ w = b / 10 ^ w := Nat.le_antisymm hdle hge
      have hmlt : a % 10 ^ w < b % 10 ^ w := by
        have ha' := Nat.div_add_mod a (10 ^ w)
        have hb' := Nat.div_add_mod b (10 ^ w)
        have hmul : 10 ^ w * (a / 10 ^ w) = 10 ^ w * (b / 10 ^ w) := by rw [heq]
        omega
      have hmb : b % 10 ^ w < 10 ^ w := Nat.mod_lt _ hpow
      rw [padNum, padNum, heq]
      exact List.Lex.cons (ih hmlt hmb)

/-! ## Lemmas about addresses and hex fields -/

theorem strip0x_addressHex (a : AddressVal) :
    strip0x (addressHex a) = fmtHex 40 (a % 2 ^ 160) := by
  simp [strip0x, addressHex]

theorem fmtHex40_eq_padNum (a : AddressVal) :
    fmtHex 40 (a % 2 ^ 160) = padNum 16 40 (a % 2 ^ 160) := by
  apply fmtHex_eq_padNum
  have : (16 : Nat) ^ 40 = 2 ^ 160 := by norm_num
  rw [this]
  exact Nat.mod_lt _ (by norm_num)

theorem EncodeAddress_eq (a : AddressVal) :
    EncodeAddress a = padNum 16 40 (a % 2 ^ 160) := by
  rw [EncodeAddress, addressHex, List.drop, List.drop, List.drop_zero, fmtHex40_eq_padNum]

theorem strip0x_padNum16 {w n : Nat} (hw : 2 ≤ w) (hn : n < 16 ^ w) :
    strip0x (padNum 16 w n) = padNum 16 w n := by
  obtain ⟨w', rfl⟩ : ∃ w', w = w' + 2 := ⟨w - 2, by omega⟩
  have hmod : n % 16 ^ (w' + 1) < 16 ^ (w' + 1) :=
    Nat.mod_lt _ (Nat.pos_pow_of_pos _ (by omega))
  have hd2 : n % 16 ^ (w' + 1) / 16 ^ w' < 16 := by
    apply (Nat.div_lt_iff_lt_mul (Nat.pos_pow_of_pos _ (by omega))).mpr
    rw [Nat.mul_comm]
    simpa [pow_succ] using hmod
  have hne := digitChar_ne_x hd2
  rw [padNum, padNum, strip0x]
  rw [if_neg]
  intro hor
  rcases hor with h | h <;> simp only [List.take] at h <;>
    rcases List.cons_eq_cons.mp h with ⟨-, h2⟩ <;>
    rcases List.cons_eq_cons.mp h2 with ⟨h3, -⟩
  · exact hne.1 h3
  · exact hne.2 h3

theorem isHexAddress_padNum40 {n : Nat} (hn : n < 16 ^ 40) :
    isHexAddress (padNum 16 40 n) = true := by
  rw [isHexAddress, strip0x_padNum16 (by omega) hn]
  simp only [Bool.and_eq_true, beq_iff_eq, List.all_eq_true]
  exact ⟨by simp [length_padNum], mem_padNum_hex hn⟩

theorem hexToAddress_padNum40 {n : Nat} (hn : n < 16 ^ 40) :
    hexToAddress (padNum 16 40 n) = n := by
  rw [hexToAddress, strip0x_padNum16 (by omega) hn, parseHex_padNum hn]
  have h2 : n < 2 ^ 160 := by
    have : (16 : Nat) ^ 40 = 2 ^ 160 := by norm_num
    omega
  simp only [Option.getD_some]
  exact Nat.mod_eq_of_lt h2

theorem isHexAddress_addressHex (a : AddressVal) :
    isHexAddress (addressHex a) = true := by
  have hm : a % 2 ^ 160 < 16 ^ 40 := by
    have : (16 : Nat) ^ 40 = 2 ^ 160 := by norm_num
    rw [this]
    exact Nat.mod_lt _ (by norm_num)
  rw [isHexAddress, strip0x_addressHex, fmtHex40_eq_padNum]
  rw [← isHexAddress_padNum40 hm, isHexAddress, strip0x_padNum16 (by omega) hm]

/-! ## Lemmas about the NFTDID codec of IndexGo -/

theorem nftdidStr_eq (did : NFTDID) :
    nftdidStr did =
      padNum 16 16 (did.chainID % 2 ^ 64) ++
        (padNum 16 40 (did.contractAddress % 2 ^ 160) ++
          padNum 16 8 (did.tokenID % 2 ^ 32)) := by
  have h1 : did.chainID % 2 ^ 64 < 16 ^ 16 := by
    have : (16 : Nat) ^ 16 = 2 ^ 64 := by norm_num
    rw [this]
    exact Nat.mod_lt _ (by norm_num)
  have h3 : did.tokenID % 2 ^ 32 < 16 ^ 8 := by
    have : (16 : Nat) ^ 8 = 2 ^ 32 := by norm_num
    rw [this]
    exact Nat.mod_lt _ (by norm_num)
  rw [nftdidStr, fmtHex_eq_padNum h1, fmtHex_eq_padNum h3, EncodeAddress_eq,
    List.append_assoc]

theorem length_nftdidStr (did : NFTDID) : (nftdidStr did).length = 64 := by
  rw [nftdidStr_eq]
  simp [length_padNum]

theorem IndexGo.EncodeNFTDID_eq (did : NFTDID) :
    IndexGo.EncodeNFTDID did = .ok (nftdidStr did) := by
  rw [IndexGo.EncodeNFTDID, if_pos (isHexAddress_addressHex did.contractAddress), nftdidStr]

theorem IndexGo.typedDecodeNFTDID_nftdidStr (did : NFTDID) :
    IndexGo.DecodeNFTDIDIndex (nftdidStr did) =
      .ok ⟨did.chainID % 2 ^ 64, did.contractAddress % 2 ^ 160, did.tokenID % 2 ^ 32⟩ := by
  have h1 : did.chainID % 2 ^ 64 < 16 ^ 16 := by
    have : (16 : Nat) ^ 16 = 2 ^ 64 := by norm_num
    rw [this]
    exact Nat.mod_lt _ (by norm_num)
  have h2 : did.contractAddress % 2 ^ 160 < 16 ^ 40 := by
    have : (16 : Nat) ^ 40 = 2 ^ 160 := by norm_num
    rw [this]
    exact Nat.mod_lt _ (by norm_num)
  have h3 : did.tokenID % 2 ^ 32 < 16 ^ 8 := by
    have : (16 : Nat) ^ 8 = 2 ^ 32 := by norm_num
    rw [this]
    exact Nat.mod_lt _ (by norm_num)
  set A := padNum 16 16 (did.chainID % 2 ^ 64) with hA
  set B := padNum 16 40 (did.contractAddress % 2 ^ 160) with hB
  set C := padNum 16 8 (did.tokenID % 2 ^ 32) with hC
  have hlA : A.length = 16 := length_padNum 16 16 _
  have hlB : B.length = 40 := length_padNum 16 40 _
  have hlC : C.length = 8 := length_padNum 16 8 _
  have hlen : (nftdidStr did).length = 64 := length_nftdidStr did
  rw [nftdidStr_eq, ← hA, ← hB, ← hC]
  rw [IndexGo.DecodeNFTDIDIndex]
  rw [if_neg (by
    rw [nftdidStr_eq] at hlen
    rw [← hA, ← hB, ← hC] at hlen
    simp [hlen, DIDLength])]
  have htake : (A ++ (B ++ C)).take 16 = A := List.take_left' hlA
  have hdrop : (A ++ (B ++ C)).drop 16 = B ++ C := List.drop_left' hlA
  simp only [getNextPart, List.drop_zero, htake]
  rw [parseUintHex_padNum (by omega) h1 (Nat.mod_lt _ (by norm_num))]
  have htakeB : ((A ++ (B ++ C)).drop 16).take AddressLength = B := by
    rw [hdrop]
    exact List.take_left' hlB
  simp only [htakeB]
  rw [if_neg (by simp [isHexAddress_padNum40 h2])]
  have hdropBC : (A ++ (B ++ C)).drop (16 + AddressLength) = C := by
    have : (16 + AddressLength) = (A ++ B).length := by
      simp [hlA, hlB, AddressLength]
    rw [this, ← List.append_assoc]
    exact List.drop_left _ _
  have htakeC : ((A ++ (B ++ C)).drop (16 + AddressLength)).take 8 = C := by
    rw [hdropBC]
    exact List.take_of_length_le (by omega)
  simp only [htakeC]
  rw [parseUintHex_padNum (by omega) h3 (Nat.mod_lt _ (by norm_num))]
  rw [hexToAddress_padNum40 h2]
  have hmm : did.tokenID % 2 ^ 32 % 2 ^ 32 = did.tokenID % 2 ^ 32 :=
    Nat.mod_mod_of_dvd _ dvd_rfl
  simp [hmm]

/-! ## Lemmas about the data-version field codec and the time codec -/

theorem trimLeftChar_replicate (c : Char) (s : GoStr) :
    ∀ k, trimLeftChar c (List.replicate k c ++ s) = trimLeftChar c s
  | 0 => by simp [List.replicate]
  | k + 1 => by
    simp only [List.replicate, List.cons_append, trimLeftChar, if_pos rfl]
    exact trimLeftChar_replicate c s k

theorem trimLeftChar_eq_self {c : Char} {s : GoStr} (h : s.head? ≠ some c) :
    trimLeftChar c s = s := by
  cases s with
  | nil => rfl
  | cons a l =>
    rw [trimLeftChar, if_neg]
    intro hh
    exact h (by rw [hh]; rfl)

theorem length_EncodeDataType {s : GoStr} (h : s.length ≤ DataTypeLength) :
    (EncodeDataType s).length = DataTypeLength := by
  rw [EncodeDataType]
  rcases Nat.lt_or_ge s.length DataTypeLength with hlt | hge
  · rw [if_neg (by omega), if_pos hlt]
    simp
    omega
  · rw [if_neg (by omega), if_neg (by omega)]
    omega

theorem DecodeDataType_EncodeDataType {s : GoStr} (h : s.length ≤ DataTypeLength) :
    DecodeDataType (EncodeDataType s) = trimLeftChar DataTypePadding s := by
  rw [EncodeDataType, DecodeDataType]
  rcases Nat.lt_or_ge s.length DataTypeLength with hlt | hge
  · rw [if_neg (by omega), if_pos hlt, trimLeftChar_replicate]
  · rw [if_neg (by omega), if_neg (by omega)]

theorem fmtDec_two {x : Nat} (hx : x < 100) :
    fmtDec 2 x = [Nat.digitChar (x / 10), Nat.digitChar (x % 10)] := by
  rw [fmtDec_eq_padNum (by omega : x < 10 ^ 2)]
  simp [padNum]

theorem parse2_digits {x : Nat} (hx : x < 100) :
    parse2 (Nat.digitChar (x / 10)) (Nat.digitChar (x % 10)) = some x := by
  rw [parse2, digitVal?_digitChar (by omega), digitVal?_digitChar (by omega)]
  simp only [Option.some.injEq]
  omega

theorem length_format150405 {t : GoTime} (h1 : t.hour < 24) (h2 : t.minute < 60)
    (h3 : t.second < 60) : (format150405 t).length = 6 := by
  rw [format150405, fmtDec_two (by omega), fmtDec_two (by omega), fmtDec_two (by omega)]
  rfl

theorem parseHHMMSS_format150405 {t : GoTime} (h1 : t.hour < 24) (h2 : t.minute < 60)
    (h3 : t.second < 60) :
    parseHHMMSS (format150405 t) = some (t.hour, t.minute, t.second) := by
  rw [format150405, fmtDec_two (by omega), fmtDec_two (by omega), fmtDec_two (by omega)]
  simp only [List.cons_append, List.nil_append, parseHHMMSS,
    parse2_digits (by omega : t.hour < 100), parse2_digits (by omega : t.minute < 100),
    parse2_digits (by omega : t.second < 100)]
  rw [if_pos ⟨h1, h2, h3⟩]

namespace IndexGo

/-- On a well-formed record the encoder succeeds and produces the
concatenation of the nine parts. -/
theorem EncodeIndex_wellFormed {r : Index} (h : WellFormed r) :
    EncodeIndex (some r) =
      .ok (nftdidStr r.subject ++ (fmtDec 6 (dateVal r.timestamp) ++
        (format150405 r.timestamp ++ (r.primaryFiller ++ (EncodeAddress r.source ++
          (EncodeDataType r.dataType ++ (r.secondaryFiller ++
            (nftdidStr r.producer ++ r.optional)))))))) := by
  obtain ⟨hpf, hsf, hdt, hy1, hy2, hm1, hm2, hd1, hd2, hh, hmin, hs, _, _, _, _, _, _, _⟩ := h
  have hpfne : r.primaryFiller ≠ [] := by
    intro hempty
    rw [hempty] at hpf
    simp at hpf
  have hsfne : r.secondaryFiller ≠ [] := by
    intro hempty
    rw [hempty] at hsf
    simp at hsf
  have hwd : WithDefaults (some r) = some r := by
    simp only [WithDefaults, if_neg hpfne, if_neg hsfne]
  have hnz : r.timestamp.isZero = false := by
    rw [GoTime.isZero, beq_eq_false_iff_ne]
    intro hz
    have : r.timestamp.year = 1 := by rw [hz]
    omega
  have hval : ValidateIndex (some r) = .ok () := by
    rw [ValidateIndex, if_neg (by simp [FillerLength, hpf]),
      if_neg (by simp [FillerLength, hsf]), if_neg (by simp [hnz]; omega)]
  rw [EncodeIndex, hwd]
  simp only [hval, EncodeNFTDID_eq, dateVal]
  simp [List.append_assoc]

/-- On a well-formed record decoding the encoder output succeeds and returns
the record with the leading pad characters of the data version stripped. -/
theorem DecodeIndex_EncodeIndex {r : Index} (h : WellFormed r) :
    DecodeIndex (nftdidStr r.subject ++ (fmtDec 6 (dateVal r.timestamp) ++
        (format150405 r.timestamp ++ (r.primaryFiller ++ (EncodeAddress r.source ++
          (EncodeDataType r.dataType ++ (r.secondaryFiller ++
            (nftdidStr r.producer ++ r.optional)))))))) =
      .ok { r with dataType := trimLeftChar DataTypePadding r.dataType } := by
  obtain ⟨hpf, hsf, hdt, hy1, hy2, hm1, hm2, hd1, hd2, hh, hmin, hs,
    hc1, hc2, hc3, hsrc, hp1, hp2, hp3⟩ := h
  have hdtlen : (20 : Nat) = DataTypeLength := rfl
  have hdate_lt : dateVal r.timestamp < 10 ^ 6 := by
    rw [dateVal, DateMax]
    omega
  set P1 := nftdidStr r.subject with hP1
  set P2 := fmtDec 6 (dateVal r.timestamp) with hP2
  set P3 := format150405 r.timestamp with hP3
  set P5 := EncodeAddress r.source with hP5
  set P6 := EncodeDataType r.dataType with hP6
  set P8 := nftdidStr r.producer with hP8
  have hl1 : P1.length = 64 := length_nftdidStr r.subject
  have hl2 : P2.length = 6 := by
    rw [hP2, fmtDec_eq_padNum hdate_lt]
    exact length_padNum 10 6 _
  have hl3 : P3.length = 6 := length_format150405 hh hmin hs
  have hl5 : P5.length = 40 := by
    rw [hP5, EncodeAddress_eq]
    exact length_padNum 16 40 _
  have hl6 : P6.length = 20 := by
    rw [hP6]
    exact length_EncodeDataType (hdtlen ▸ hdt)
  have hl8 : P8.length = 64 := length_nftdidStr r.producer
  set L := P1 ++ (P2 ++ (P3 ++ (r.primaryFiller ++ (P5 ++ (P6 ++ (r.secondaryFiller ++
    (P8 ++ r.optional))))))) with hL
  have hlen : L.length = 204 + r.optional.length := by
    rw [hL]
    simp [hl1, hl2, hl3, hl5, hl6, hl8, hpf, hsf]
    omega
  have htot : TotalLength = 204 := rfl
  have hd64 : L.drop 64 = P2 ++ (P3 ++ (r.primaryFiller ++ (P5 ++ (P6 ++
      (r.secondaryFiller ++ (P8 ++ r.optional)))))) := by
    rw [hL]
    exact List.drop_left' hl1
  have hd70 : L.drop 70 = P3 ++ (r.primaryFiller ++ (P5 ++ (P6 ++
      (r.secondaryFiller ++ (P8 ++ r.optional))))) := by
    have : L.drop 70 = (L.drop 64).drop 6 := by
      rw [List.drop_drop]
    rw [this, hd64]
    exact List.drop_left' hl2
  have hd76 : L.drop 76 = r.primaryFiller ++ (P5 ++ (P6 ++
      (r.secondaryFiller ++ (P8 ++ r.optional)))) := by
    have : L.drop 76 = (L.drop 70).drop 6 := by
      rw [List.drop_drop]
    rw [this, hd70]
    exact List.drop_left' hl3
  have hd78 : L.drop 78 = P5 ++ (P6 ++ (r.secondaryFiller ++ (P8 ++ r.optional))) := by
    have : L.drop 78 = (L.drop 76).drop 2 := by
      rw [List.drop_drop]
    rw [this, hd76]
    exact List.drop_left' hpf
  have hd118 : L.drop 118 = P6 ++ (r.secondaryFiller ++ (P8 ++ r.optional)) := by
    have : L.drop 118 = (L.drop 78).drop 40 := by
      rw [List.drop_drop]
    rw [this, hd78]
    exact List.drop_left' hl5
  have hd138 : L.drop 138 = r.secondaryFiller ++ (P8 ++ r.optional) := by
    have : L.drop 138 = (L.drop 118).drop 20 := by
      rw [List.drop_drop]
    rw [this, hd118]
    exact List.drop_left' hl6
  have hd140 : L.drop 140 = P8 ++ r.optional := by
    have : L.drop 140 = (L.drop 138).drop 2 := by
      rw [List.drop_drop]
    rw [this, hd138]
    exact List.drop_left' hsf
  have hd204 : L.drop 204 = r.optional := by
    have : L.drop 204 = (L.drop 140).drop 64 := by
      rw [List.drop_drop]
    rw [this, hd140]
    exact List.drop_left' hl8
  have ht0 : L.take 64 = P1 := by
    rw [hL]
    exact List.take_left' hl1
  have ht64 : (L.drop 64).take 6 = P2 := by
    rw [hd64]
    exact List.take_left' hl2
  have ht70 : (L.drop 70).take 6 = P3 := by
    rw [hd70]
    exact List.take_left' hl3
  have ht76 : (L.drop 76).take 2 = r.primaryFiller := by
    rw [hd76]
    exact List.take_left' hpf
  have ht78 : (L.drop 78).take 40 = P5 := by
    rw [hd78]
    exact List.take_left' hl5
  have ht118 : (L.drop 118).take 20 = P6 := by
    rw [hd118]
    exact List.take_left' hl6
  have ht138 : (L.drop 138).take 2 = r.secondaryFiller := by
    rw [hd138]
    exact List.take_left' hsf
  have ht140 : (L.drop 140).take 64 = P8 := by
    rw [hd140]
    exact List.take_left' hl8
  have hdate : atoi P2 = some (dateVal r.timestamp) := by
    rw [hP2]
    exact atoi_fmtDec (by omega) hdate_lt
  have hyymmdd :
      DateMax - dateVal r.timestamp =
        (r.timestamp.year % 100) * 10000 + r.timestamp.month * 100 + r.timestamp.day := by
    rw [dateVal, DateMax]
    omega
  have hsubj : DecodeNFTDIDIndex P1 = .ok r.subject := by
    rw [hP1, typedDecodeNFTDID_nftdidStr]
    rw [Nat.mod_eq_of_lt hc1, Nat.mod_eq_of_lt hc2, Nat.mod_eq_of_lt hc3]
  have hprod : DecodeNFTDIDIndex P8 = .ok r.producer := by
    rw [hP8, typedDecodeNFTDID_nftdidStr]
    rw [Nat.mod_eq_of_lt hp1, Nat.mod_eq_of_lt hp2, Nat.mod_eq_of_lt hp3]
  have htime : parseHHMMSS P3 = some (r.timestamp.hour, r.timestamp.minute, r.timestamp.second) :=
    parseHHMMSS_format150405 hh hmin hs
  have hsrcmod : r.source % 2 ^ 160 = r.source := Nat.mod_eq_of_lt hsrc
  have hsrc16 : r.source < 16 ^ 40 := by
    have hp : (16 : Nat) ^ 40 = 2 ^ 160 := by norm_num
    rw [hp]
    exact hsrc
  have hsrchex : isHexAddress P5 = true := by
    rw [hP5, EncodeAddress_eq, hsrcmod]
    exact isHexAddress_padNum40 hsrc16
  have hsrcdec : hexToAddress P5 = r.source := by
    rw [hP5, EncodeAddress_eq, hsrcmod]
    exact hexToAddress_padNum40 hsrc16
  have hdtdec : DecodeDataType P6 = trimLeftChar DataTypePadding r.dataType := by
    rw [hP6]
    exact DecodeDataType_EncodeDataType (hdtlen ▸ hdt)
  rw [DecodeIndex]
  rw [if_neg (by rw [hlen, htot]; omega)]
  simp only [getNextPart, List.drop_zero, DIDLength, DateLength, TimeLength, FillerLength,
    AddressLength, DataTypeLength]
  simp only [ht0, ht64, ht70, ht76, ht78, ht118, ht138, ht140, hd204, hdate, hyymmdd]
  have hyear : ((r.timestamp.year % 100) * 10000 + r.timestamp.month * 100 + r.timestamp.day) /
      10000 + 2000 = r.timestamp.year := by omega
  have hmonth : ((r.timestamp.year % 100) * 10000 + r.timestamp.month * 100 + r.timestamp.day) %
      10000 / 100 = r.timestamp.month := by omega
  have hday : ((r.timestamp.year % 100) * 10000 + r.timestamp.month * 100 + r.timestamp.day) %
      100 = r.timestamp.day := by omega
  simp only [hyear, hmonth, hday]
  rw [if_neg (by omega), if_neg (by omega)]
  simp only [hsubj, htime, hsrchex, Bool.not_true, hprod, hsrcdec, hdtdec]
  rw [timeDate]
  congr 1

end IndexGo

/-! ## Lemmas about the CloudGo generation -/

theorem length_trimLeftChar_le (c : Char) : ∀ s : GoStr, (trimLeftChar c s).length ≤ s.length
  | [] => Nat.le_refl _
  | a :: l => by
    rw [trimLeftChar]
    split
    · exact Nat.le_trans (length_trimLeftChar_le c l) (by simp)
    · simp

theorem trimLeftChar_ne_of_head {c : Char} {s : GoStr} (h : s.head? = some c) :
    trimLeftChar c s ≠ s := by
  cases s with
  | nil => simp at h
  | cons a l =>
    have ha : a = c := by simpa using h
    rw [trimLeftChar, if_pos ha]
    intro heq
    have hlen := congrArg List.length heq
    have := length_trimLeftChar_le c l
    simp at hlen
    omega

theorem CloudGo.length_EncodeSubject (s : GoStr) :
    (CloudGo.EncodeSubject s).length = DIDLength := by
  rw [CloudGo.EncodeSubject]
  rcases Nat.lt_trichotomy s.length DIDLength with hlt | heq | hgt
  · rw [if_neg (by omega), if_pos hlt]
    simp
    omega
  · rw [if_neg (by omega), if_neg (by omega)]
    exact heq
  · rw [if_pos hgt]
    simp
    omega

theorem CloudGo.EncodeIndex_ok_ne_nil {idx : CloudGo.Index} {k : GoStr}
    (h : CloudGo.EncodeIndex (some idx) = .ok k) : k ≠ [] := by
  intro hk
  subst hk
  rw [CloudGo.EncodeIndex] at h
  cases hd : CloudGo.EncodeDate idx.WithEncodedParts.timestamp with
  | error e => rw [hd] at h; simp at h
  | ok dp =>
    rw [hd] at h
    simp only [Except.ok.injEq] at h
    have hlen := congrArg List.length h
    simp only [List.length_append, List.length_nil] at hlen
    have hsub : idx.WithEncodedParts.subject.length = DIDLength := by
      rw [CloudGo.Index.WithEncodedParts]
      exact CloudGo.length_EncodeSubject idx.subject
    rw [DIDLength] at hsub
    omega

theorem CloudGo.cloudDecodeNFTDID_nftdidStr (did : NFTDID) :
    CloudGo.DecodeNFTDIDIndex (nftdidStr did) =
      .ok ⟨did.chainID % 2 ^ 64, did.contractAddress % 2 ^ 160, did.tokenID % 2 ^ 32⟩ := by
  have h1 : did.chainID % 2 ^ 64 < 16 ^ 16 := by
    have hp : (16 : Nat) ^ 16 = 2 ^ 64 := by norm_num
    rw [hp]
    exact Nat.mod_lt _ (by norm_num)
  have h2 : did.contractAddress % 2 ^ 160 < 16 ^ 40 := by
    have hp : (16 : Nat) ^ 40 = 2 ^ 160 := by norm_num
    rw [hp]
    exact Nat.mod_lt _ (by norm_num)
  have h3 : did.tokenID % 2 ^ 32 < 16 ^ 8 := by
    have hp : (16 : Nat) ^ 8 = 2 ^ 32 := by norm_num
    rw [hp]
    exact Nat.mod_lt _ (by norm_num)
  set A := padNum 16 16 (did.chainID % 2 ^ 64) with hA
  set B := padNum 16 40 (did.contractAddress % 2 ^ 160) with hB
  set C := padNum 16 8 (did.tokenID % 2 ^ 32) with hC
  have hlA : A.length = 16 := length_padNum 16 16 _
  have hlB : B.length = 40 := length_padNum 16 40 _
  have hlC : C.length = 8 := length_padNum 16 8 _
  have hlen : (nftdidStr did).length = 64 := length_nftdidStr did
  rw [nftdidStr_eq, ← hA, ← hB, ← hC]
  rw [CloudGo.DecodeNFTDIDIndex]
  rw [if_neg (by
    rw [nftdidStr_eq] at hlen
    rw [← hA, ← hB, ← hC] at hlen
    simp [hlen, DIDLength])]
  have htake : (A ++ (B ++ C)).take 16 = A := List.take_left' hlA
  have hdrop : (A ++ (B ++ C)).drop 16 = B ++ C := List.drop_left' hlA
  have htakeB : ((A ++ (B ++ C)).drop 16).take AddressLength = B := by
    rw [hdrop]
    exact List.take_left' hlB
  have hdropBC : (A ++ (B ++ C)).drop (16 + AddressLength) = C := by
    have he : (16 + AddressLength) = (A ++ B).length := by
      simp [hlA, hlB, AddressLength]
    rw [he, ← List.append_assoc]
    exact List.drop_left _ _
  have htakeC : ((A ++ (B ++ C)).drop (16 + AddressLength)).take 8 = C := by
    rw [hdropBC]
    exact List.take_of_length_le (by omega)
  simp only [getNextPart, List.drop_zero, htake, htakeB, htakeC]
  rw [parseUintHex_padNum (by omega) h1 (Nat.mod_lt _ (by norm_num))]
  rw [CloudGo.DecodeAddress, if_pos (isHexAddress_padNum40 h2)]
  rw [parseUintHex_padNum (by omega) h3 (Nat.mod_lt _ (by norm_num))]
  rw [hexToAddress_padNum40 h2]
  have hmm : did.tokenID % 2 ^ 32 % 2 ^ 32 = did.tokenID % 2 ^ 32 :=
    Nat.mod_mod_of_dvd _ dvd_rfl
  simp [hmm]

/-! ## Lemmas about the instrumented blob fetch loop -/

theorem RepoGo.getT_all_ok (getter : RepoGo.ObjGetter) :
    ∀ keys : List GoStr, (∀ k ∈ keys, ∃ c, getter k = .ok c) →
      RepoGo.GetObjectsFromIndexKeysT getter keys =
        (keys, .ok (keys.map fun k => ((getter k).toOption).getD []))
  | [], _ => rfl
  | k :: ks, h => by
    obtain ⟨c, hc⟩ := h k (by simp)
    have ih := RepoGo.getT_all_ok getter ks fun x hx => h x (by simp [hx])
    rw [RepoGo.GetObjectsFromIndexKeysT, RepoGo.GetObjectFromIndex, hc, ih]
    simp [hc, Except.toOption]

/-! # Claim theorems -/

theorem except_bind_ok {e : Type} {a b : Type} (x : a) (f : a → Except e b) :
    (Except.ok x : Except e a).bind f = f x := rfl

/-- C1 (amended): for every Index record whose fields already satisfy the
fixed-width constraints (fillers of length exactly 2, DataType of at most 20
characters, UTC timestamp with second precision and year in [2000, 2099],
arbitrary optional tail) and whose DataType does not begin with the reserved
pad character, DecodeIndex (EncodeIndex record) succeeds and returns the
input record. The unamended claim fails when DataType begins with the pad
character, see the counterexample. -/
theorem C1_roundTrip {r : IndexGo.Index} (h : IndexGo.WellFormed r)
    (hpad : r.dataType.head? ≠ some DataTypePadding) :
    (IndexGo.EncodeIndex (some r)).bind IndexGo.DecodeIndex = .ok r := by
  rw [IndexGo.EncodeIndex_wellFormed h, except_bind_ok]
  rw [IndexGo.DecodeIndex_EncodeIndex h, trimLeftChar_eq_self hpad]

/-- C1 counterexample: the concrete record c1Record satisfies every
fixed-width constraint of the claim, yet decoding its encoding does not
return it (the leading pad character of its data version is stripped). -/
theorem C1_counterexample :
    IndexGo.WellFormed c1Record ∧
      (IndexGo.EncodeIndex (some c1Record)).bind IndexGo.DecodeIndex ≠ .ok c1Record := by
  have hwf : IndexGo.WellFormed c1Record := by
    unfold IndexGo.WellFormed
    decide
  refine ⟨hwf, ?_⟩
  rw [IndexGo.EncodeIndex_wellFormed hwf, except_bind_ok]
  rw [IndexGo.DecodeIndex_EncodeIndex hwf]
  intro hcontra
  have hrec := Except.ok.inj hcontra
  have hdt := congrArg IndexGo.Index.dataType hrec
  revert hdt
  decide

/-- C1 witness: the round trip at a concrete well-formed record. -/
theorem C1_witness :
    (IndexGo.EncodeIndex (some c1WitnessRecord)).bind IndexGo.DecodeIndex =
      .ok c1WitnessRecord :=
  C1_roundTrip (by unfold IndexGo.WellFormed; decide) (by decide)

/-- C10: decoding strips every leading pad character of the 20-character
data-version field, including those of the original value: for every data
version of length at most 20 the field codec returns the value with all of
its leading pad characters removed, and consequently the full round trip
does not return a record whose data version begins with the pad character
even though the stated length constraints hold. -/
theorem C10_padStripTrap :
    (∀ s : GoStr, s.length ≤ DataTypeLength →
      DecodeDataType (EncodeDataType s) = trimLeftChar DataTypePadding s) ∧
    (∀ r : IndexGo.Index, IndexGo.WellFormed r → r.dataType.head? = some DataTypePadding →
      (IndexGo.EncodeIndex (some r)).bind IndexGo.DecodeIndex ≠ .ok r) := by
  refine ⟨fun s hs => DecodeDataType_EncodeDataType hs, fun r h hpad => ?_⟩
  rw [IndexGo.EncodeIndex_wellFormed h, except_bind_ok]
  rw [IndexGo.DecodeIndex_EncodeIndex h]
  intro hcontra
  have hrec := Except.ok.inj hcontra
  have hdt := congrArg IndexGo.Index.dataType hrec
  exact trimLeftChar_ne_of_head hpad hdt

/-- C10 witness: the pad stripping at a concrete data version and the failed
round trip at a concrete record whose data version starts with the pad
character. -/
theorem C10_witness :
    DecodeDataType (EncodeDataType ("!v".toList)) = trimLeftChar DataTypePadding ("!v".toList) ∧
      (IndexGo.EncodeIndex (some c10Record)).bind IndexGo.DecodeIndex ≠ .ok c10Record := by
  obtain ⟨hfield, hrec⟩ := C10_padStripTrap
  exact ⟨hfield _ (by decide), hrec c10Record (by unfold IndexGo.WellFormed; decide) (by decide)⟩

/-- C3: EncodeIndex fails with an InvalidError and produces no output string
whenever, after defaulting of empty fillers, a filler length differs from 2
or the timestamp year lies outside [2000, 2099]; the violation is never
corrected by truncation or padding. -/
theorem C3_encodeValidation (r : IndexGo.Index)
    (h : (if r.primaryFiller = [] then DefaultPrimaryFiller else r.primaryFiller).length ≠
        FillerLength ∨
      (if r.secondaryFiller = [] then DefaultSecondaryFiller else r.secondaryFiller).length ≠
        FillerLength ∨
      r.timestamp.year < 2000 ∨ 2099 < r.timestamp.year) :
    ∃ msg, IndexGo.EncodeIndex (some r) = .error (.invalidIndex msg) := by
  set pf := if r.primaryFiller = [] then DefaultPrimaryFiller else r.primaryFiller with hpf
  set sf := if r.secondaryFiller = [] then DefaultSecondaryFiller else r.secondaryFiller with hsf
  have hwd : IndexGo.WithDefaults (some r) =
      some { r with primaryFiller := pf, secondaryFiller := sf } := rfl
  by_cases h1 : pf.length ≠ FillerLength
  · refine ⟨"primary filler length".toList, ?_⟩
    rw [IndexGo.EncodeIndex, hwd]
    rw [IndexGo.ValidateIndex]
    simp only [if_pos h1]
  · by_cases h2 : sf.length ≠ FillerLength
    · refine ⟨"secondary filler length".toList, ?_⟩
      rw [IndexGo.EncodeIndex, hwd]
      rw [IndexGo.ValidateIndex]
      simp only [if_neg h1, if_pos h2]
    · have h3 : r.timestamp.year < 2000 ∨ 2099 < r.timestamp.year := by tauto
      refine ⟨"timestamp year must be between 2000 and 2099".toList, ?_⟩
      rw [IndexGo.EncodeIndex, hwd]
      rw [IndexGo.ValidateIndex]
      simp only [if_neg h1, if_neg h2]
      rw [if_pos (by
        right
        simpa using h3)]

/-- C3 witness: a three-character primary filler and a year-1900 timestamp
each make encoding fail with a validation error. -/
theorem C3_witness :
    (∃ msg, IndexGo.EncodeIndex (some c3FillerRecord) = .error (.invalidIndex msg)) ∧
      ∃ msg, IndexGo.EncodeIndex (some c3YearRecord) = .error (.invalidIndex msg) :=
  ⟨C3_encodeValidation c3FillerRecord (by decide),
    C3_encodeValidation c3YearRecord (by decide)⟩

/-- C2: the date segment of an encoded key (characters 64 to 70) is the six
zero-padded decimal digits of 999999 minus the packed two-digit year, month
and day; for any two encodable timestamps the strictly later calendar date
yields the lexicographically strictly smaller segment, and concretely the
segment of 2024-06-11 is smaller than that of 2020-06-02. -/
theorem C2_dateInversion :
    (∀ r : IndexGo.Index, IndexGo.WellFormed r →
      ∃ enc, IndexGo.EncodeIndex (some r) = .ok enc ∧
        (enc.drop DIDLength).take DateLength =
          fmtDec 6 (DateMax - ((r.timestamp.year % 100) * 10000 +
            r.timestamp.month * 100 + r.timestamp.day))) ∧
    (∀ t1 t2 : GoTime, CalendarValid t1 → CalendarValid t2 → DateLater t1 t2 →
      ∃ s1 s2, CloudGo.EncodeDate t1 = .ok s1 ∧ CloudGo.EncodeDate t2 = .ok s2 ∧ s1 < s2) ∧
    (∃ s1 s2, CloudGo.EncodeDate ⟨2024, 6, 11, 15, 30, 0⟩ = .ok s1 ∧
      CloudGo.EncodeDate ⟨2020, 6, 2, 15, 30, 0⟩ = .ok s2 ∧
      s1 = "759388".toList ∧ s2 = "799397".toList ∧ s1 < s2) := by
  refine ⟨?_, ?_, ?_⟩
  · intro r h
    refine ⟨_, IndexGo.EncodeIndex_wellFormed h, ?_⟩
    obtain ⟨hpf, hsf, hdt, hy1, hy2, hm1, hm2, hd1, hd2, hh, hmin, hs, -⟩ := h
    have hdate_lt : IndexGo.dateVal r.timestamp < 10 ^ 6 := by
      rw [IndexGo.dateVal, DateMax]
      omega
    have hl1 : (nftdidStr r.subject).length = DIDLength := length_nftdidStr r.subject
    have hl2 : (fmtDec 6 (IndexGo.dateVal r.timestamp)).length = DateLength := by
      rw [fmtDec_eq_padNum hdate_lt, DateLength]
      exact length_padNum 10 6 _
    rw [List.drop_left' hl1, List.take_left' hl2, IndexGo.dateVal]
  · intro t1 t2 hv1 hv2 hlater
    obtain ⟨ha1, ha2, ha3, ha4, ha5, ha6⟩ := hv1
    obtain ⟨hb1, hb2, hb3, hb4, hb5, hb6⟩ := hv2
    have hz1 : t1.isZero = false := by
      rw [GoTime.isZero, beq_eq_false_iff_ne]
      intro hz
      have : t1.year = 1 := by rw [hz]
      omega
    have hz2 : t2.isZero = false := by
      rw [GoTime.isZero, beq_eq_false_iff_ne]
      intro hz
      have : t2.year = 1 := by rw [hz]
      omega
    have hv1 : DateMax - ((t1.year % 100) * 10000 + t1.month * 100 + t1.day) < 10 ^ 6 := by
      rw [DateMax]
      omega
    have hv2 : DateMax - ((t2.year % 100) * 10000 + t2.month * 100 + t2.day) < 10 ^ 6 := by
      rw [DateMax]
      omega
    refine ⟨fmtDec 6 (DateMax - ((t1.year % 100) * 10000 + t1.month * 100 + t1.day)),
      fmtDec 6 (DateMax - ((t2.year % 100) * 10000 + t2.month * 100 + t2.day)), ?_, ?_, ?_⟩
    · rw [CloudGo.EncodeDate, if_neg (by simp [hz1]; omega)]
    · rw [CloudGo.EncodeDate, if_neg (by simp [hz2]; omega)]
    · rw [fmtDec_eq_padNum hv1, fmtDec_eq_padNum hv2]
      apply padNum_dec_lt _ hv2
      rcases hlater with hy | ⟨hy, hm | ⟨hm, hd⟩⟩ <;>
        · rw [DateMax]
          omega
  · exact ⟨"759388".toList, "799397".toList, by rfl, by rfl, by decide, by decide,
      by decide⟩

/-- C2 witness: the date segment of a concrete well-formed record and the
inversion at a concrete later and earlier date. -/
theorem C2_witness :
    (∃ enc, IndexGo.EncodeIndex (some c2Record) = .ok enc ∧
      (enc.drop DIDLength).take DateLength =
        fmtDec 6 (DateMax - ((c2Record.timestamp.year % 100) * 10000 +
          c2Record.timestamp.month * 100 + c2Record.timestamp.day))) ∧
    ∃ s1 s2, CloudGo.EncodeDate ⟨2025, 1, 2, 0, 0, 0⟩ = .ok s1 ∧
      CloudGo.EncodeDate ⟨2024, 12, 31, 0, 0, 0⟩ = .ok s2 ∧ s1 < s2 := by
  obtain ⟨h1, h2, -⟩ := C2_dateInversion
  exact ⟨h1 c2Record (by unfold IndexGo.WellFormed; decide),
    h2 ⟨2025, 1, 2, 0, 0, 0⟩ ⟨2024, 12, 31, 0, 0, 0⟩ (by unfold CalendarValid; decide)
      (by unfold CalendarValid; decide) (by unfold DateLater; decide)⟩

/-- C4: EncodeNFTDID maps every identifier, with no failure mode, to exactly
64 characters, the chain id at offsets 0 to 16, the unprefixed address at 16
to 56 and the token id at 56 to 64; DecodeNFTDIDIndex fails on any input
whose length is not 64 and otherwise inverts the encoder field by field, so
decoding an encoded identifier returns it. -/
theorem C4_nftdidCodec (did : NFTDID) (h1 : did.chainID < 2 ^ 64)
    (h2 : did.contractAddress < 2 ^ 160) (h3 : did.tokenID < 2 ^ 32) :
    (CloudGo.EncodeNFTDID did).length = 64 ∧
    (CloudGo.EncodeNFTDID did).take 16 = fmtHex 16 did.chainID ∧
    ((CloudGo.EncodeNFTDID did).drop 16).take 40 = EncodeAddress did.contractAddress ∧
    (CloudGo.EncodeNFTDID did).drop 56 = fmtHex 8 did.tokenID ∧
    CloudGo.DecodeNFTDIDIndex (CloudGo.EncodeNFTDID did) = .ok did ∧
    (∀ s : GoStr, s.length ≠ 64 →
      ∃ msg, CloudGo.DecodeNFTDIDIndex s = .error (.invalidIndex msg)) := by
  have he : CloudGo.EncodeNFTDID did = nftdidStr did := rfl
  have e1 : did.chainID % 2 ^ 64 = did.chainID := Nat.mod_eq_of_lt h1
  have e2 : did.contractAddress % 2 ^ 160 = did.contractAddress := Nat.mod_eq_of_lt h2
  have e3 : did.tokenID % 2 ^ 32 = did.tokenID := Nat.mod_eq_of_lt h3
  have hlA : (fmtHex 16 (did.chainID % 2 ^ 64)).length = 16 := by
    rw [e1, fmtHex_eq_padNum (by
      have hp : (16 : Nat) ^ 16 = 2 ^ 64 := by norm_num
      rw [hp]
      exact h1)]
    exact length_padNum 16 16 _
  have hlB : (EncodeAddress did.contractAddress).length = 40 := by
    rw [EncodeAddress_eq]
    exact length_padNum 16 40 _
  refine ⟨?_, ?_, ?_, ?_, ?_, ?_⟩
  · rw [he]
    exact length_nftdidStr did
  · rw [he, nftdidStr, List.append_assoc, e1, List.take_left' (e1 ▸ hlA)]
  · rw [he, nftdidStr, List.append_assoc, List.drop_left' hlA, List.take_left' hlB]
  · rw [he, nftdidStr]
    have hl56 : (fmtHex 16 (did.chainID % 2 ^ 64) ++ EncodeAddress did.contractAddress).length
        = 56 := by
      rw [List.length_append, hlA, hlB]
    rw [e3, List.drop_left' hl56]
  · rw [he, CloudGo.cloudDecodeNFTDID_nftdidStr, e1, e2, e3]
  · intro s hs
    exact ⟨"invalid NFTDID length".toList, by
      rw [CloudGo.DecodeNFTDIDIndex, if_pos (by simp [DIDLength, hs])]⟩

/-- C4 witness: the codec at a concrete identifier and the length failure at
a concrete short input. -/
theorem C4_witness :
    (CloudGo.EncodeNFTDID ⟨153, 77, 3649⟩).length = 64 ∧
      CloudGo.DecodeNFTDIDIndex (CloudGo.EncodeNFTDID ⟨153, 77, 3649⟩) = .ok ⟨153, 77, 3649⟩ ∧
      ∃ msg, CloudGo.DecodeNFTDIDIndex ("abc".toList) = .error (.invalidIndex msg) := by
  obtain ⟨hlen, -, -, -, hrt, hfail⟩ :=
    C4_nftdidCodec ⟨153, 77, 3649⟩ (by decide) (by decide) (by decide)
  exact ⟨hlen, hrt, hfail _ (by decide)⟩

/-- C5 (amended): composed with the primary-filler encoder that produces the
two-character code of the key, the event-type lookup takes status to MA,
fingerprint to ME, verifiable credential to MV and every other type to MU;
the filler-to-type lookup is its inverse with the unknown type as fallback
for unrecognised fillers, so converting a recognised type to its filler and
back yields the type. The unamended claim omits the verifiable-credential
row, see the counterexample. -/
theorem C5_eventTypeFillerMapping :
    CloudGo.EncodePrimaryFiller (CloudGo.CloudTypeToFiller CloudGo.TypeStatus) = "MA".toList ∧
    CloudGo.EncodePrimaryFiller (CloudGo.CloudTypeToFiller CloudGo.TypeFingerprint) =
      "ME".toList ∧
    CloudGo.EncodePrimaryFiller (CloudGo.CloudTypeToFiller CloudGo.TypeVerifableCredential) =
      "MV".toList ∧
    (∀ t : GoStr, t ≠ CloudGo.TypeStatus → t ≠ CloudGo.TypeFingerprint →
      t ≠ CloudGo.TypeVerifableCredential →
      CloudGo.EncodePrimaryFiller (CloudGo.CloudTypeToFiller t) = "MU".toList) ∧
    CloudGo.FillerToCloudType (CloudGo.CloudTypeToFiller CloudGo.TypeStatus) =
      CloudGo.TypeStatus ∧
    CloudGo.FillerToCloudType (CloudGo.CloudTypeToFiller CloudGo.TypeFingerprint) =
      CloudGo.TypeFingerprint ∧
    CloudGo.FillerToCloudType (CloudGo.CloudTypeToFiller CloudGo.TypeVerifableCredential) =
      CloudGo.TypeVerifableCredential ∧
    (∀ f : GoStr, f ≠ CloudGo.FillerStatus → f ≠ CloudGo.FillerFingerprint →
      f ≠ CloudGo.FillerVerifiableCredential → CloudGo.FillerToCloudType f =
        CloudGo.TypeUnknown) ∧
    (∀ t : GoStr,
      CloudGo.FillerToCloudType (CloudGo.DecodePrimaryFiller
        (CloudGo.EncodePrimaryFiller (CloudGo.CloudTypeToFiller t))) =
      CloudGo.FillerToCloudType (CloudGo.CloudTypeToFiller t)) := by
  refine ⟨by decide, by decide, by decide, ?_, by decide, by decide, by decide, ?_, ?_⟩
  · intro t ht1 ht2 ht3
    rw [CloudGo.CloudTypeToFiller, if_neg ht1, if_neg ht2, if_neg ht3]
    decide
  · intro f hf1 hf2 hf3
    rw [CloudGo.FillerToCloudType, if_neg hf1, if_neg hf2, if_neg hf3]
  · intro t
    rw [CloudGo.CloudTypeToFiller]
    by_cases h1 : t = CloudGo.TypeStatus
    · rw [if_pos h1]
      decide
    · rw [if_neg h1]
      by_cases h2 : t = CloudGo.TypeFingerprint
      · rw [if_pos h2]
        decide
      · rw [if_neg h2]
        by_cases h3 : t = CloudGo.TypeVerifableCredential
        · rw [if_pos h3]
          decide
        · rw [if_neg h3]
          decide

/-- C5 counterexample: the verifiable-credential event type is neither status
nor fingerprint, yet its two-character code in the key is MV, not the MU that
the claimed three-row lookup prescribes for every type other than status and
fingerprint. -/
theorem C5_counterexample :
    CloudGo.TypeVerifableCredential ≠ CloudGo.TypeStatus ∧
      CloudGo.TypeVerifableCredential ≠ CloudGo.TypeFingerprint ∧
      CloudGo.EncodePrimaryFiller
        (CloudGo.CloudTypeToFiller CloudGo.TypeVerifableCredential) = "MV".toList ∧
      CloudGo.EncodePrimaryFiller
        (CloudGo.CloudTypeToFiller CloudGo.TypeVerifableCredential) ≠ "MU".toList := by
  decide

/-- C5 witness: the generic rows of the lookup applied at an unrecognised
type and at an unrecognised filler. -/
theorem C5_witness :
    CloudGo.EncodePrimaryFiller (CloudGo.CloudTypeToFiller ("dimo.other".toList)) =
      "MU".toList ∧
    CloudGo.FillerToCloudType ("Z".toList) = CloudGo.TypeUnknown := by
  obtain ⟨-, -, -, h4, -, -, -, h8, -⟩ := C5_eventTypeFillerMapping
  exact ⟨h4 _ (by decide) (by decide) (by decide), h8 _ (by decide) (by decide) (by decide)⟩

/-- C6: the best-effort conversion never fails for any header, including a
nil one; an invalid timestamp is replaced by the current time and an
unparseable subject, producer or source keeps the raw header string; and the
index key derived by the row builder (the encoded index, or the synthetic
id, source, RFC3339 time and subject fallback if encoding fails) is always a
non-empty string, returned without error. -/
theorem C6_bestEffortTotal (hdr : CloudGo.CloudEventHeader) (secondaryFiller : GoStr)
    (now : GoTime) :
    (CloudGo.CloudEventToSlice hdr secondaryFiller now).indexKey ≠ [] ∧
    (∀ e, CloudGo.ValidateDate hdr.time = .error e →
      (CloudGo.CloudEventToPartialIndex (some hdr) secondaryFiller now).timestamp = now) ∧
    (∀ e, CloudGo.DecodeNFTDID hdr.subject = .error e →
      (CloudGo.CloudEventToPartialIndex (some hdr) secondaryFiller now).subject =
        hdr.subject) ∧
    (∀ e, CloudGo.DecodeNFTDID hdr.producer = .error e →
      (CloudGo.CloudEventToPartialIndex (some hdr) secondaryFiller now).producer =
        hdr.producer) ∧
    (∀ e, CloudGo.DecodeAddress hdr.source = .error e →
      (CloudGo.CloudEventToPartialIndex (some hdr) secondaryFiller now).source =
        hdr.source) ∧
    (CloudGo.CloudEventToPartialIndex none secondaryFiller now).timestamp = now := by
  refine ⟨?_, ?_, ?_, ?_, ?_, rfl⟩
  · rw [CloudGo.CloudEventToSlice]
    cases he : CloudGo.EncodeIndex
        (some (CloudGo.CloudEventToPartialIndex (some hdr) secondaryFiller now)) with
    | ok k =>
      simp only [he]
      exact CloudGo.EncodeIndex_ok_ne_nil he
    | error e =>
      simp only [he]
      intro hk
      have hlen := congrArg List.length hk
      simp only [List.length_append, List.length_cons, List.length_nil] at hlen
      omega
  · intro e he
    rw [CloudGo.CloudEventToPartialIndex]
    simp only [he]
  · intro e he
    rw [CloudGo.CloudEventToPartialIndex]
    simp only [he]
  · intro e he
    rw [CloudGo.CloudEventToPartialIndex]
    simp only [he]
  · intro e he
    rw [CloudGo.CloudEventToPartialIndex]
    simp only [he]

/-- C6 witness: at a concrete header with a zero timestamp and a non-DID
subject the derived key is non-empty, the timestamp is replaced and the raw
subject is kept. -/
theorem C6_witness :
    (CloudGo.CloudEventToSlice c6Header ("00".toList) c6Now).indexKey ≠ [] ∧
      (CloudGo.CloudEventToPartialIndex (some c6Header) ("00".toList) c6Now).timestamp =
        c6Now ∧
      (CloudGo.CloudEventToPartialIndex (some c6Header) ("00".toList) c6Now).subject =
        c6Header.subject := by
  obtain ⟨h1, h2, h3, -, -, -⟩ := C6_bestEffortTotal c6Header ("00".toList) c6Now
  exact ⟨h1, h2 _ (by rfl), h3 _ (by rfl)⟩

/-- C7 (amended): the latest lookups (GetLatestFileName, GetLatestIndexKey)
and the mature list query (GetIndexKeys) surface an error wrapping
sql.ErrNoRows whenever zero rows match the criteria, and never return an
empty string or an empty list with a nil error; the legacy list query
GetFileNames, however, returns an empty list with a nil error, see the
counterexample. -/
theorem C7_notFoundDistinguishable :
    (∀ (table : List RepoGo.Row) (opts : RepoGo.RawSearchOptions),
      table.filter (fun r => opts.matches r) = [] →
        RepoGo.GetLatestIndexKey table opts =
          .error (.noRows "no index keys found for subject".toList)) ∧
    (∀ (table : List RepoGo.Row) (limit : Nat) (opts : RepoGo.RawSearchOptions),
      table.filter (fun r => opts.matches r) = [] →
        RepoGo.GetIndexKeys table limit opts =
          .error (.noRows "no indexKeys found for subject".toList)) ∧
    (∀ (table : List RepoGo.FileRow) (opts : RepoGo.SearchOptions),
      table.filter (fun r => opts.matches r) = [] →
        RepoGo.GetLatestFileName table opts =
          .error (.noRows "no filenames found for subject".toList)) ∧
    (∀ (table : List RepoGo.Row) (opts : RepoGo.RawSearchOptions) (key : GoStr),
      RepoGo.GetLatestIndexKey table opts = .ok key → key ≠ []) ∧
    (∀ (table : List RepoGo.Row) (limit : Nat) (opts : RepoGo.RawSearchOptions)
      (keys : List GoStr), RepoGo.GetIndexKeys table limit opts = .ok keys → keys ≠ []) := by
  refine ⟨?_, ?_, ?_, ?_, ?_⟩
  · intro table opts hempty
    rw [RepoGo.GetLatestIndexKey, hempty]
    rfl
  · intro table limit opts hempty
    rw [RepoGo.GetIndexKeys, hempty]
    simp [RepoGo.orderByTimestamp, RepoGo.sortBy]
  · intro table opts hempty
    rw [RepoGo.GetLatestFileName, hempty]
    rfl
  · intro table opts key hok
    rw [RepoGo.GetLatestIndexKey] at hok
    split at hok
    · exact absurd hok (by simp)
    · next hne => exact (Except.ok.inj hok) ▸ hne
  · intro table limit opts keys hok
    rw [RepoGo.GetIndexKeys] at hok
    split at hok
    · exact absurd hok (by simp)
    · next hne => exact (Except.ok.inj hok) ▸ hne

/-- C7 counterexample: on a table with zero matching rows the legacy list
query GetFileNames returns an empty list together with a nil error instead
of a not-found error. -/
theorem C7_counterexample :
    RepoGo.GetFileNames ([] : List RepoGo.FileRow) 10
        ⟨none, none, false, none, none, none, none, none, none, none⟩ = .ok [] ∧
      ([] : List RepoGo.FileRow).filter
        (fun r => RepoGo.SearchOptions.matches
          ⟨none, none, false, none, none, none, none, none, none, none⟩ r) = [] :=
  ⟨rfl, rfl⟩

/-- C7 witness: the three not-found errors and the non-empty guarantees at
the empty table. -/
theorem C7_witness :
    RepoGo.GetLatestIndexKey ([] : List RepoGo.Row)
        ⟨none, none, false, none, none, none, none, none, none⟩ =
      .error (.noRows "no index keys found for subject".toList) ∧
    RepoGo.GetIndexKeys ([] : List RepoGo.Row) 10
        ⟨none, none, false, none, none, none, none, none, none⟩ =
      .error (.noRows "no indexKeys found for subject".toList) ∧
    RepoGo.GetLatestFileName ([] : List RepoGo.FileRow)
        ⟨none, none, false, none, none, none, none, none, none, none⟩ =
      .error (.noRows "no filenames found for subject".toList) := by
  obtain ⟨h1, h2, h3, -, -⟩ := C7_notFoundDistinguishable
  exact ⟨h1 _ _ rfl, h2 _ 10 _ rfl, h3 _ _ rfl⟩

/-- C8 (amended): the blob fetch loop performs exactly one get-object call
per row, in order, with no de-duplication and no per-call cache; rows that
share a key therefore trigger repeated fetches of that key, and they receive
equal content because the content is a function of the key within the call.
The claimed single fetch per distinct key does not hold, see the
counterexample. -/
theorem C8_fetchPerRow (getter : RepoGo.ObjGetter) (keys : List GoStr)
    (h : ∀ k ∈ keys, ∃ c, getter k = .ok c) :
    RepoGo.getObjectCalls getter keys = keys ∧
      RepoGo.GetObjectsFromIndexKeys getter keys =
        .ok (keys.map fun k => ((getter k).toOption).getD []) := by
  have ht := RepoGo.getT_all_ok getter keys h
  constructor
  · rw [RepoGo.getObjectCalls, ht]
  · rw [RepoGo.GetObjectsFromIndexKeys, ht]

/-- C8 counterexample: two rows referencing the same key make two underlying
get-object calls, not one, though both receive the same content. -/
theorem C8_counterexample :
    RepoGo.getObjectCalls (fun _ => .ok ("data".toList)) ["k".toList, "k".toList] =
        ["k".toList, "k".toList] ∧
      (RepoGo.getObjectCalls (fun _ => .ok ("data".toList))
        ["k".toList, "k".toList]).length = 2 ∧
      RepoGo.GetObjectsFromIndexKeys (fun _ => .ok ("data".toList))
          ["k".toList, "k".toList] =
        .ok ["data".toList, "data".toList] :=
  ⟨rfl, rfl, rfl⟩

/-- C8 witness: the per-row fetch trace at a concrete getter and key list. -/
theorem C8_witness :
    RepoGo.getObjectCalls (fun _ => .ok ("c".toList)) ["a".toList, "b".toList] =
        ["a".toList, "b".toList] ∧
      RepoGo.GetObjectsFromIndexKeys (fun _ => .ok ("c".toList))
          ["a".toList, "b".toList] = .ok ["c".toList, "c".toList] := by
  have hc := C8_fetchPerRow (fun _ => .ok ("c".toList)) ["a".toList, "b".toList]
    (fun k _ => ⟨"c".toList, rfl⟩)
  exact ⟨hc.1, hc.2⟩

/-- C9: in storeObject the blob write must succeed before the row insert is
attempted; if the put fails the operation errors and the columnar store is
unchanged, if the insert fails the already-written blob stays (no rollback),
and a row only ever becomes visible together with its blob. -/
theorem C9_storeOrdering (index : CloudGo.Index) (data : GoStr) (st : RepoGo.StoreState)
    (henc : ∃ key, CloudGo.EncodeIndex (some index) = .ok key) :
    (∀ execFails, RepoGo.storeObject index data true execFails st =
      (st, some (.wrapped "failed to store object in S3".toList
        (.storeFail "put".toList)))) ∧
    (∃ key values, CloudGo.EncodeIndex (some index) = .ok key ∧
      RepoGo.IndexToSlice index = .ok values ∧
      RepoGo.storeObject index data false true st =
        ({ st with blob := st.blob ++ [(key, data)] },
          some (.wrapped "failed to store index in ClickHouse".toList
            (.storeFail "exec".toList))) ∧
      RepoGo.storeObject index data false false st =
        (⟨st.blob ++ [(key, data)], st.rows ++ [values]⟩, none)) ∧
    (∀ putFails execFails,
      ((RepoGo.storeObject index data putFails execFails st).1).rows ≠ st.rows →
        ∃ key, CloudGo.EncodeIndex (some index) = .ok key ∧
          ((RepoGo.storeObject index data putFails execFails st).1).blob =
            st.blob ++ [(key, data)]) := by
  obtain ⟨key, hkey⟩ := henc
  have hslice : RepoGo.IndexToSlice index =
      .ok [.str index.WithEncodedParts.subject, .time index.WithEncodedParts.timestamp,
        .str index.WithEncodedParts.primaryFiller, .str index.WithEncodedParts.source,
        .str index.WithEncodedParts.dataType, .str index.WithEncodedParts.secondaryFiller,
        .str index.WithEncodedParts.producer, .str index.WithEncodedParts.optional,
        .str key] := by
    rw [RepoGo.IndexToSlice, hkey]
  refine ⟨?_, ?_, ?_⟩
  · intro execFails
    simp [RepoGo.storeObject, hkey]
  · refine ⟨key, _, hkey, hslice, ?_, ?_⟩
    · simp [RepoGo.storeObject, hkey, hslice]
    · simp [RepoGo.storeObject, hkey, hslice]
  · intro putFails execFails
    cases putFails with
    | true =>
      simp [RepoGo.storeObject, hkey]
    | false =>
      cases execFails with
      | true =>
        simp [RepoGo.storeObject, hkey, hslice]
      | false =>
        intro _
        refine ⟨key, hkey, ?_⟩
        simp [RepoGo.storeObject, hkey, hslice]

/-- C9 witness: the put-failure case at a concrete record and empty stores.
-/
theorem C9_witness :
    RepoGo.storeObject c9Record ("d".toList) true false ⟨[], []⟩ =
      (⟨[], []⟩, some (.wrapped "failed to store object in S3".toList
        (.storeFail "put".toList))) := by
  obtain ⟨h1, -, -⟩ := C9_storeOrdering c9Record ("d".toList) ⟨[], []⟩ ⟨_, rfl⟩
  exact h1 false

end Nameindexer
